import Mathlib

/-!
Verification development for the TriOps workflow-action execution core.

JavaScript strings are modelled as `List Char` (`Str`), JavaScript numbers as
exact rationals `ℚ` (every concrete number handled in this development is
exactly representable as an IEEE double, so the model and the runtime agree on
them), and JavaScript values as the inductive `JVal`.  Each definition carries
a doc comment naming the source file and lines it embeds.
-/

set_option maxRecDepth 4000

namespace TriOps

/-- JavaScript strings, modelled as lists of characters. -/
abbrev Str := List Char

/-- Conversion from a Lean string literal to the `Str` model. -/
def lit (s : String) : Str := s.toList

/-- The `'{'` character (written via its code point). -/
def braceL : Char := Char.ofNat 123

/-- The `'}'` character (written via its code point). -/
def braceR : Char := Char.ofNat 125

/-- The `'\''` character (written via its code point). -/
def quoteS : Char := Char.ofNat 39

/-- The `'"'` character (written via its code point). -/
def quoteD : Char := Char.ofNat 34

/-- `pat.isPrefixOf s` written out explicitly: JS `String.startsWith`. -/
def hasPre : Str → Str → Bool
  | [], _ => true
  | _ :: _, [] => false
  | p :: ps, c :: cs => p = c && hasPre ps cs

/-- JS `String.includes`: `needle` occurs as a contiguous substring of `hay`. -/
def strContains : Str → Str → Bool
  | [], needle => needle.isEmpty
  | hay@(_ :: rest), needle => hasPre needle hay || strContains rest needle

/-- ASCII lower-casing, the fragment of JS `toLowerCase` exercised here
(all hostnames and tokens in this development are ASCII). -/
def asciiLower (s : Str) : Str := s.map Char.toLower

/-- ASCII upper-casing, the fragment of JS `toUpperCase` exercised here. -/
def asciiUpper (s : Str) : Str := s.map Char.toUpper

/-- JS `\s` whitespace class (the members that occur in our inputs). -/
def isJsSpace (c : Char) : Bool :=
  c = ' ' || c = '\t' || c = '\n' || c = '\r'

/-- JS `\w` word class: letters, digits, underscore. -/
def isWordChar (c : Char) : Bool :=
  c.isAlpha || c.isDigit || c = '_'

/-- JS `String.trim`: strip leading and trailing whitespace. -/
def jsTrim (s : Str) : Str :=
  (((s.dropWhile isJsSpace).reverse).dropWhile isJsSpace).reverse

/-- The character for a decimal digit. -/
def digitChar (d : ℕ) : Char := Char.ofNat ('0'.toNat + d)

/-- Decimal digits of a natural number (fuel-based, kernel-computable). -/
def natToStrAux : ℕ → ℕ → Str
  | 0, _ => []
  | fuel + 1, n => if n < 10 then [digitChar n]
      else natToStrAux fuel (n / 10) ++ [digitChar (n % 10)]

/-- Decimal rendering of a natural number. -/
def natToStr (n : ℕ) : Str := natToStrAux (n + 1) n

/-- Decimal rendering of an integer. -/
def intToStr (i : ℤ) : Str :=
  if i < 0 then '-' :: natToStr i.natAbs else natToStr i.natAbs

/-- Value of a list of decimal digit characters. -/
def digitsVal (ds : Str) : ℕ :=
  ds.foldl (fun acc c => acc * 10 + (c.toNat - '0'.toNat)) 0

/-- An exact JS number, as a numerator/denominator pair with its own
kernel-computable arithmetic (the standard `ℚ` operations normalize through
`Nat.gcd`, which the kernel cannot reduce; every concrete number handled here
is exactly representable as an IEEE double, so this model and the runtime
agree on them).  The denominator is kept positive; fractions need not be in
lowest terms. -/
structure JsNum where
  num : ℤ
  den : ℕ
deriving DecidableEq

/-- The integer `n` as a `JsNum`. -/
def JsNum.ofInt (n : ℤ) : JsNum := ⟨n, 1⟩

/-- Addition: `a/b + c/d = (ad + cb)/(bd)`. -/
def JsNum.add (x y : JsNum) : JsNum :=
  ⟨x.num * y.den + y.num * x.den, x.den * y.den⟩

/-- Subtraction. -/
def JsNum.sub (x y : JsNum) : JsNum :=
  ⟨x.num * y.den - y.num * x.den, x.den * y.den⟩

/-- Multiplication. -/
def JsNum.mul (x y : JsNum) : JsNum := ⟨x.num * y.num, x.den * y.den⟩

/-- Division (callers guard against a zero divisor). -/
def JsNum.div (x y : JsNum) : JsNum :=
  if y.num < 0 then ⟨-(x.num * y.den), x.den * y.num.natAbs⟩
  else ⟨x.num * y.den, x.den * y.num.natAbs⟩

/-- `10^e` for an integer exponent `e`. -/
def JsNum.pow10 (e : ℤ) : JsNum :=
  if e < 0 then ⟨1, 10 ^ e.natAbs⟩ else ⟨(10 : ℤ) ^ e.natAbs, 1⟩

/-- `Math.floor` on an exact number: floor division of numerator by
denominator. -/
def JsNum.floorInt (x : JsNum) : ℤ := x.num.fdiv (x.den : ℤ)

/-- `Math.ceil`. -/
def JsNum.ceilInt (x : JsNum) : ℤ := -((JsNum.mk (-x.num) x.den).floorInt)

/-- `Math.abs`. -/
def JsNum.abs (x : JsNum) : JsNum := ⟨|x.num|, x.den⟩

/-- `Math.round`: the floor of `x + 1/2` (round half toward `+∞`). -/
def JsNum.round (x : JsNum) : ℤ := (x.add ⟨1, 2⟩).floorInt

/-- Whether the number is zero. -/
def JsNum.isZero (x : JsNum) : Bool := x.num = 0

/-- JS values, as far as this development needs them. -/
inductive JVal where
  | s (v : Str)
  | n (v : JsNum)
  | b (v : Bool)
  | null
  | undefined
  | arr (xs : List JVal)
  | o (fields : List (Str × JVal))

/-- JS truthiness (`!!v`).  Objects and arrays are always truthy. -/
def jsTruthy : JVal → Bool
  | .s v => !v.isEmpty
  | .n v => !v.isZero
  | .b v => v
  | .null => false
  | .undefined => false
  | .arr _ => true
  | .o _ => true

/-- `String(q)` for a JS number: integers print without a point; other
terminating decimals print with their shortest fractional part.  (Every
number reaching this function in the theorems below is an integer or a
terminating decimal, where the IEEE-double rendering agrees with the exact
one; the final non-terminating branch is never reached in this
development.) -/
def jsNumToStr (q : JsNum) : Str :=
  if q.num % (q.den : ℤ) = 0 then intToStr (q.num / (q.den : ℤ))
  else
    match (List.range 50).find?
        (fun k => (q.num * (10 : ℤ) ^ (k + 1)) % (q.den : ℤ) = 0) with
    | some k =>
        let places := k + 1
        let scaled : ℤ := (q.num * (10 : ℤ) ^ places) / (q.den : ℤ)
        let sign : Str := if scaled < 0 then ['-'] else []
        let mag : ℕ := scaled.natAbs
        let ip : ℕ := mag / 10 ^ places
        let fpDigits : Str :=
          let raw := natToStr (mag % 10 ^ places)
          List.replicate (places - raw.length) '0' ++ raw
        sign ++ natToStr ip ++ '.' :: fpDigits
    | none => intToStr q.num ++ '/' :: natToStr q.den

/-- `String(v)` for the JS values used here (`String` of an array joins the
rendered elements with commas; `String` of a plain object is the fixed tag).
The fuel bounds the array-nesting depth (structural recursion keeps the
function kernel-computable); no value in this development nests anywhere near
the bound. -/
def jsValToStrFuel : ℕ → JVal → Str
  | _, .s v => v
  | _, .n v => jsNumToStr v
  | _, .b v => if v then lit "true" else lit "false"
  | _, .null => lit "null"
  | _, .undefined => lit "undefined"
  | fuel + 1, .arr xs => ((xs.map (jsValToStrFuel fuel)).intersperse [',']).flatten
  | 0, .arr _ => []
  | _, .o _ => lit "[object Object]"

/-- `String(v)` entry point. -/
def jsValToStr (v : JVal) : Str := jsValToStrFuel 1000 v

/-- Floor of a rational, computed by floor-division of numerator by
denominator (kernel-computable, unlike the `FloorRing` notation). -/
def ratFloor (q : ℚ) : ℤ := q.num.fdiv (q.den : ℤ)

/-- JS `Math.round`: round half toward positive infinity, i.e. the floor of
`q + 1/2`. -/
def jsRound (q : ℚ) : ℤ := ratFloor (q + 1 / 2)

/-- JS `parseFloat`: skip leading whitespace, then read the longest prefix of
the form `[+-]? digits [. digits]? ([eE][+-]?digits)?`; `none` models `NaN`
(no numeric prefix at all). -/
def jsParseFloat (s : Str) : Option JsNum :=
  let s1 := s.dropWhile isJsSpace
  let (neg, s2) :=
    match s1 with
    | '-' :: r => (true, r)
    | '+' :: r => (false, r)
    | r => (false, r)
  let ds := s2.takeWhile Char.isDigit
  let s3 := s2.drop ds.length
  let (fds, s4) :=
    match s3 with
    | '.' :: r => (r.takeWhile Char.isDigit, (r.takeWhile Char.isDigit).length + 1)
    | _ => (([] : Str), 0)
  let s5 := s3.drop s4
  if ds.isEmpty && fds.isEmpty then none
  else
    let base : JsNum :=
      (JsNum.ofInt (digitsVal ds)).add
        ((JsNum.ofInt (digitsVal fds)).div (JsNum.ofInt ((10 : ℤ) ^ fds.length)))
    let expPart : ℤ :=
      match s5 with
      | 'e' :: r | 'E' :: r =>
        match r with
        | '-' :: r2 => if (r2.takeWhile Char.isDigit).isEmpty then 0
                       else -(digitsVal (r2.takeWhile Char.isDigit) : ℤ)
        | '+' :: r2 => if (r2.takeWhile Char.isDigit).isEmpty then 0
                       else (digitsVal (r2.takeWhile Char.isDigit) : ℤ)
        | r2 => if (r2.takeWhile Char.isDigit).isEmpty then 0
                else (digitsVal (r2.takeWhile Char.isDigit) : ℤ)
      | _ => 0
    let signed := if neg then base.mul (JsNum.ofInt (-1)) else base
    some (signed.mul (JsNum.pow10 expPart))

/-! ## SSRF guard (src/services/encryption.js, webhook-dispatcher segment, lines 457-613) -/

/-- `/^172\.(1[6-9]|2[0-9]|3[0-1])\./` — private class B (172.16.0.0/12). -/
def patPrivateB (s : Str) : Bool :=
  match s with
  | '1' :: '7' :: '2' :: '.' :: d1 :: d2 :: '.' :: _ =>
      (d1 = '1' && ('6'.toNat ≤ d2.toNat && d2.toNat ≤ '9'.toNat)) ||
      (d1 = '2' && d2.isDigit) ||
      (d1 = '3' && (d2 = '0' || d2 = '1'))
  | _ => false

/-- `6[4-9]\.` — first alternative of the CGNAT second octet. -/
def cgnatAlt1 : Str → Bool
  | '6' :: d :: '.' :: _ => '4'.toNat ≤ d.toNat && d.toNat ≤ '9'.toNat
  | _ => false

/-- `[7-9][0-9]\.` — second alternative of the CGNAT second octet. -/
def cgnatAlt2 : Str → Bool
  | a :: b :: '.' :: _ => ('7'.toNat ≤ a.toNat && a.toNat ≤ '9'.toNat) && b.isDigit
  | _ => false

/-- `1[01][0-9]\.` — third alternative of the CGNAT second octet. -/
def cgnatAlt3 : Str → Bool
  | '1' :: a :: b :: '.' :: _ => (a = '0' || a = '1') && b.isDigit
  | _ => false

/-- `12[0-7]\.` — fourth alternative of the CGNAT second octet. -/
def cgnatAlt4 : Str → Bool
  | '1' :: '2' :: d :: '.' :: _ => '0'.toNat ≤ d.toNat && d.toNat ≤ '7'.toNat
  | _ => false

/-- `/^100\.(6[4-9]|[7-9][0-9]|1[01][0-9]|12[0-7])\./` — CGNAT (100.64.0.0/10). -/
def patCgnat (s : Str) : Bool :=
  match s with
  | '1' :: '0' :: '0' :: '.' :: rest =>
      cgnatAlt1 rest || cgnatAlt2 rest || cgnatAlt3 rest || cgnatAlt4 rest
  | _ => false

/-- `BLOCKED_IP_PATTERNS` (encryption.js lines 482-500), in source order.  The
anchored-prefix regexes become `hasPre` tests; `/^::1$/` is exact equality; the
two `/i` patterns lower-case their input first. -/
def blockedIpPatternsTest (s : Str) : Bool :=
  hasPre (lit "127.") s ||
  hasPre (lit "10.") s ||
  patPrivateB s ||
  hasPre (lit "192.168.") s ||
  hasPre (lit "169.254.") s ||
  hasPre (lit "0.") s ||
  patCgnat s ||
  hasPre (lit "192.0.0.") s ||
  hasPre (lit "192.0.2.") s ||
  hasPre (lit "198.51.100.") s ||
  hasPre (lit "203.0.113.") s ||
  hasPre (lit "224.") s ||
  hasPre (lit "240.") s ||
  hasPre (lit "255.") s ||
  s = lit "::1" ||
  hasPre (lit "fc00:") (asciiLower s) ||
  hasPre (lit "fe80:") (asciiLower s)

/-- `BLOCKED_HOSTNAMES` (encryption.js lines 505-515). -/
def BLOCKED_HOSTNAMES : List Str :=
  [lit "localhost", lit "localhost.localdomain", lit "127.0.0.1", lit "0.0.0.0",
   lit "::1", lit "[::1]", lit "metadata.google.internal", lit "169.254.169.254",
   lit "metadata.azure.com"]

/-- `hostname.match(/^(\d{1,3})\.(\d{1,3})\.(\d{1,3})\.(\d{1,3})$/)`: the four
octet strings (1-3 decimal digits each), when the whole string has that shape. -/
def ipv4Parts (s : Str) : Option (ℕ × ℕ × ℕ × ℕ) :=
  match s.splitOn '.' with
  | [a, b, c, d] =>
      if [a, b, c, d].all (fun p => !p.isEmpty && p.length ≤ 3 && p.all Char.isDigit)
      then some (digitsVal a, digitsVal b, digitsVal c, digitsVal d)
      else none
  | _ => none

/-- A webhook URL after WHATWG `new URL` parsing, restricted to the components
`validateWebhookUrl` reads.  Note that for an IPv6 literal the WHATWG
`hostname` getter keeps the surrounding brackets (`[::1]`), and userinfo is
split into `username`/`password`. -/
structure ParsedUrl where
  protocol : Str
  hostname : Str
  username : Str
  password : Str

/-- `validateWebhookUrl` (encryption.js lines 522-572), on an already-parsed
URL; `true` models `{ valid: true }` and `false` a `{ valid: false }` result
(the error strings are not modelled).  The guard in source order: protocol
allow-list, hostname denylist, IPv4-literal pattern check, IPv6-looking
pattern check, embedded-credentials check. -/
def validateWebhookUrl (u : ParsedUrl) : Bool :=
  if !(u.protocol = lit "http:" || u.protocol = lit "https:") then false
  else
    let hostname := asciiLower u.hostname
    if BLOCKED_HOSTNAMES.contains hostname then false
    else if (ipv4Parts hostname).isSome && blockedIpPatternsTest hostname then false
    else if (hasPre (lit "[") hostname || hostname.contains ':') &&
            blockedIpPatternsTest hostname then false
    else if !u.username.isEmpty || !u.password.isEmpty then false
    else true

/-- `isBlockedIP` (encryption.js lines 579-585): a resolved address string is
blocked if it matches a blocked pattern or equals a denylisted hostname. -/
def isBlockedIP (ip : Str) : Bool :=
  blockedIpPatternsTest ip || BLOCKED_HOSTNAMES.contains ip

/-! ## DNS resolve-and-pin (encryption.js lines 594-613, 793-814, 888-1002) -/

/-- One entry of a `dns.lookup(hostname, { all: true })` answer. -/
structure AddrEntry where
  address : Str
  family : ℕ
deriving DecidableEq

/-- The DNS resolver as an oracle: the answer the operating-system resolver
would give to the k-th lookup call this request performs.  A rebinding
resolver is one whose answers differ between calls. -/
abbrev Resolver := ℕ → Except Str (List AddrEntry)

/-- The address list a plain (non-pinned) `dns.lookup` call yields; a resolver
error yields no connectable addresses. -/
def liveAnswer (resolver : Resolver) (n : ℕ) : List AddrEntry :=
  match resolver n with
  | .ok a => a
  | .error _ => []

/-- `validateResolvedIP` (encryption.js lines 594-613), threading the index of
the next DNS call.  For a direct IPv4 literal the DNS check is skipped and no
addresses are pinned; otherwise the hostname is resolved once, rejecting on a
resolver error, an empty answer, or any blocked address.  The first component
is `none` for `{ valid: false }`, and `some pinned` for `{ valid: true }` with
`pinned` the `resolvedAddresses` field (absent for IPv4 literals). -/
def validateResolvedIP (resolver : Resolver) (n : ℕ) (hostname : Str) :
    Option (Option (List AddrEntry)) × ℕ :=
  if (ipv4Parts hostname).isSome then (some none, n)
  else
    match resolver n with
    | .error _ => (none, n + 1)
    | .ok addrs =>
        if addrs.isEmpty then (none, n + 1)
        else if addrs.any (fun a => isBlockedIP a.address) then (none, n + 1)
        else (some (some addrs), n + 1)

/-- The connection targets of the attempt loop (encryption.js lines 944-992):
each attempt calls `executeSingleRequest` with the pinned addresses; the agent
`pinnedLookup` (lines 804-814) answers every lookup from the pinned set
without consulting the resolver, while an unpinned attempt does a live
`dns.lookup`.  Returns the per-attempt target lists and the next DNS call
index. -/
def connectLoop (resolver : Resolver) (pinned : Option (List AddrEntry)) :
    ℕ → ℕ → List (List AddrEntry) × ℕ
  | 0, n => ([], n)
  | k + 1, n =>
      let (tgt, n') :=
        match pinned with
        | some addrs => if !addrs.isEmpty then (addrs, n) else (liveAnswer resolver n, n + 1)
        | none => (liveAnswer resolver n, n + 1)
      let (rest, n'') := connectLoop resolver pinned k n'
      (tgt :: rest, n'')

/-- The SSRF preflight of `executeWebhook` (encryption.js lines 888-936)
followed by the connection targets of `k` attempts: `none` when the request is
rejected before any attempt (URL validation or DNS validation failed), else
the per-attempt connection target lists together with the total number of DNS
calls the request made. -/
def webhookConnectTargets (resolver : Resolver) (u : ParsedUrl) (k : ℕ) :
    Option (List (List AddrEntry) × ℕ) :=
  if !validateWebhookUrl u then none
  else
    match validateResolvedIP resolver 0 u.hostname with
    | (none, _) => none
    | (some pinned, n1) => some (connectLoop resolver pinned k n1)

/-! ## Spec-side range definitions (for comparison with the code's pattern
list; these follow the words of spec §4.3.2 item 4 / §8.2, not the source) -/

/-- The claim's IPv4 ranges, by their first two octets: private (10/8,
172.16/12, 192.168/16), loopback (127/8), link-local (169.254/16), CGNAT
(100.64/10), reserved (240/4), multicast (224/4). -/
def specBlockedIPv4 (a b : ℕ) : Prop :=
  a = 10 ∨ (a = 172 ∧ 16 ≤ b ∧ b ≤ 31) ∨ (a = 192 ∧ b = 168) ∨
  a = 127 ∨ (a = 169 ∧ b = 254) ∨ (a = 100 ∧ 64 ≤ b ∧ b ≤ 127) ∨
  (240 ≤ a ∧ a ≤ 255) ∨ (224 ≤ a ∧ a ≤ 239)

instance (a b : ℕ) : Decidable (specBlockedIPv4 a b) := by
  unfold specBlockedIPv4; infer_instance

/-! ## Error sanitization (src/routes/actions.js lines 14-27) -/

/-- One pass of JS `String.replace` with a `/g` regex: scan left to right; at
each position the matcher either consumes `used ≥ 1` characters and emits a
replacement, or the current character is copied.  Replacements are not
rescanned.  The fuel starts at the string length, which suffices because every
match consumes at least one character. -/
def replaceScanFuel (step : Str → Option (Str × ℕ)) : ℕ → Str → Str
  | 0, s => s
  | _, [] => []
  | fuel + 1, s@(c :: rest) =>
      match step s with
      | some (rep, used) =>
          if used = 0 then c :: replaceScanFuel step fuel rest
          else rep ++ replaceScanFuel step fuel (s.drop used)
      | none => c :: replaceScanFuel step fuel rest

/-- Driver for a global regex replacement pass. -/
def replaceScan (step : Str → Option (Str × ℕ)) (s : Str) : Str :=
  replaceScanFuel step s.length s

/-- The character class `[^\s:]` of the path regexes. -/
def isPathChar (c : Char) : Bool := !(isJsSpace c || c = ':')

/-- Greedy tail of `[^\s:]+\.[jt]s[x]?`: the number of characters matched
from `rest` on, for the longest `[^\s:]+` prefix (of length `L ≥ 1`) followed
by `.js`/`.ts` and an optional `x`.  `ci` lower-cases the letters first (for
the `/i`-flagged Windows variant). -/
def pathTail (ci : Bool) (rest : Str) : Option ℕ :=
  let m := (rest.takeWhile isPathChar).length
  ((List.range m).reverse.map (· + 1)).findSome? fun L =>
    match rest.drop L with
    | '.' :: t :: s :: more =>
        let t := if ci then t.toLower else t
        let s := if ci then s.toLower else s
        if (t = 'j' || t = 't') && s = 's' then
          some (if (if ci then more.head?.map Char.toLower else more.head?) = some 'x'
                then L + 4 else L + 3)
        else none
    | _ => none

/-- Matcher for `/\/[^\s:]+\.[jt]s[x]?/g` (Unix path) at a position. -/
def unixPathStep (s : Str) : Option (Str × ℕ) :=
  match s with
  | '/' :: rest => (pathTail false rest).map (fun n => (lit "[path]", n + 1))
  | _ => none

/-- Matcher for `/[A-Z]:\\[^\s:]+\.[jt]s[x]?/gi` (Windows path) at a position. -/
def winPathStep (s : Str) : Option (Str × ℕ) :=
  match s with
  | d :: ':' :: '\\' :: rest =>
      if d.isAlpha then (pathTail true rest).map (fun n => (lit "[path]", n + 3))
      else none
  | _ => none

/-- Matcher for `/mongodb(\+srv)?:\/\/[^\s]+/gi` at a position (the optional
`+srv` group backtracks when `://` does not follow it). -/
def mongoStep (s : Str) : Option (Str × ℕ) :=
  if hasPre (lit "mongodb") (asciiLower s) then
    let tail := fun (headLen : ℕ) =>
      match s.drop headLen with
      | ':' :: '/' :: '/' :: rest =>
          let m := (rest.takeWhile (fun c => !isJsSpace c)).length
          if m = 0 then none else some (lit "[connection]", headLen + 3 + m)
      | _ => none
    if hasPre (lit "+srv") (asciiLower (s.drop 7)) then
      match tail 11 with
      | some r => some r
      | none => tail 7
    else tail 7
  else none

/-- `sanitizeErrorMessage` (actions.js lines 18-27): strip Unix paths, Windows
paths and MongoDB connection strings, then truncate to 500 characters.  An
empty (falsy) message yields the fixed fallback text. -/
def sanitizeErrorMessage (message : Str) : Str :=
  if message.isEmpty then lit "An internal error occurred"
  else
    let s1 := replaceScan unixPathStep message
    let s2 := replaceScan winPathStep s1
    let s3 := replaceScan mongoStep s2
    s3.take 500

/-! ## Retry engine (encryption.js lines 618-674 and 944-1002) -/

/-- `DEFAULT_RETRY_CONFIG` / the merged retry configuration (encryption.js
lines 618-625, 938-942).  Numeric fields are rationals (exact doubles). -/
structure RetryConfig where
  maxRetries : ℕ
  initialDelayMs : ℚ
  maxDelayMs : ℚ
  backoffMultiplier : ℚ
  retryableStatusCodes : List ℕ
  retryableErrors : List Str

/-- The default retry configuration values (encryption.js lines 618-625). -/
def DEFAULT_RETRY_CONFIG : RetryConfig :=
  { maxRetries := 3
    initialDelayMs := 1000
    maxDelayMs := 10000
    backoffMultiplier := 2
    retryableStatusCodes := [408, 429, 500, 502, 503, 504]
    retryableErrors := [lit "ECONNRESET", lit "ETIMEDOUT", lit "ECONNABORTED",
                        lit "ENOTFOUND", lit "EAI_AGAIN"] }

/-- `calculateBackoffDelay` (encryption.js lines 642-648); `r` is the
`Math.random()` draw, a rational in `[0, 1)`. -/
def calculateBackoffDelay (attempt : ℕ) (config : RetryConfig) (r : ℚ) : ℤ :=
  let exponentialDelay := config.initialDelayMs * config.backoffMultiplier ^ attempt
  let cappedDelay := min exponentialDelay config.maxDelayMs
  let jitter := cappedDelay * (1 / 4) * (r * 2 - 1)
  jsRound (cappedDelay + jitter)

/-- What a single webhook attempt came back with: an HTTP response with a
status code, or a transport-level error with its Node error code and message. -/
inductive AttemptOutcome where
  | http (status : ℕ)
  | transportError (code : Str) (message : Str)
deriving DecidableEq

/-- The fields of an `executeSingleRequest` result (encryption.js lines
843-877) that the retry loop reads: HTTP responses of any status resolve with
`success` iff the status is in the 200 range, a transport error whose code is
`ECONNABORTED` or whose message mentions `timeout` gets `status: 'timeout'`,
any other transport error `status: 'error'`. -/
structure SingleResult where
  success : Bool
  status : Str
  httpStatusCode : Option ℕ
  errorCode : Option Str
deriving DecidableEq

/-- Result shaping of `executeSingleRequest` (encryption.js lines 817-877). -/
def mkSingleResult : AttemptOutcome → SingleResult
  | .http s =>
      { success := 200 ≤ s && s < 300
        status := if 200 ≤ s && s < 300 then lit "success" else lit "error"
        httpStatusCode := some s
        errorCode := none }
  | .transportError code msg =>
      if code = lit "ECONNABORTED" || strContains msg (lit "timeout") then
        { success := false, status := lit "timeout", httpStatusCode := none,
          errorCode := some code }
      else
        { success := false, status := lit "error", httpStatusCode := none,
          errorCode := some code }

/-- `isRetryable` (encryption.js lines 657-674): retryable error code, or a
(truthy) retryable HTTP status code, or a timeout status. -/
def isRetryable (result : SingleResult) (errorCode : Option Str) (config : RetryConfig) : Bool :=
  (match errorCode with
   | some c => config.retryableErrors.contains c
   | none => false) ||
  (match result.httpStatusCode with
   | some c => c ≠ 0 && config.retryableStatusCodes.contains c
   | none => false) ||
  result.status = lit "timeout"

/-- One recorded attempt (encryption.js lines 964-970). -/
structure AttemptInfo where
  attempt : ℕ
  status : Str
  httpStatusCode : Option ℕ
deriving DecidableEq

/-- The retry loop of `executeWebhook` (encryption.js lines 952-992), with the
attempt outcomes and the `Math.random()` draws supplied as oracles indexed by
attempt/retry number.  The fuel argument is `maxRetries + 1 - attempt`, so the
`0` case is unreachable.  Returns the recorded attempts, the backoff delays
slept (in order), and whether the loop ended in success. -/
def retryLoopAux (retry : RetryConfig) (outcomes : ℕ → AttemptOutcome) (rand : ℕ → ℚ) :
    ℕ → ℕ → List AttemptInfo × List ℤ × Bool
  | _, 0 => ([], [], false)
  | attempt, fuel + 1 =>
      let delays : List ℤ :=
        if attempt > 0 then [calculateBackoffDelay (attempt - 1) retry (rand (attempt - 1))]
        else []
      let result := mkSingleResult (outcomes attempt)
      let info : AttemptInfo := ⟨attempt + 1, result.status, result.httpStatusCode⟩
      if result.success then ([info], delays, true)
      else if attempt < retry.maxRetries && isRetryable result result.errorCode retry then
        let rest := retryLoopAux retry outcomes rand (attempt + 1) fuel
        (info :: rest.1, delays ++ rest.2.1, rest.2.2)
      else ([info], delays, false)

/-- The outward-visible shape of an `executeWebhook` run. -/
structure RetryRun where
  attempts : List AttemptInfo
  delays : List ℤ
  retriesUsed : ℕ
  success : Bool

/-- `executeWebhook`'s retry behaviour (encryption.js lines 938-1002): with
`maxRetries = 0` a single unrecorded request is made (lines 945-947);
otherwise the loop runs and `retriesUsed` is the attempt index on success and
`attempts.length - 1` on exhaustion (both equal `attempts.length - 1`). -/
def executeWebhookRun (retry : RetryConfig) (outcomes : ℕ → AttemptOutcome) (rand : ℕ → ℚ) :
    RetryRun :=
  if retry.maxRetries = 0 then
    ⟨[], [], 0, (mkSingleResult (outcomes 0)).success⟩
  else
    let (attempts, delays, ok) := retryLoopAux retry outcomes rand 0 (retry.maxRetries + 1)
    ⟨attempts, delays, attempts.length - 1, ok⟩

/-! ## Inbound signature middleware (src/middleware/hubspotSignature.js lines
104-170: `verifyWorkflowActionSignature`) -/

/-- The process environment the middleware reads. -/
structure SigEnv where
  nodeEnv : Option Str
  clientSecret : Option Str

/-- The parts of an inbound action request the middleware reads: the
`portalId` from the body, and the signature / version / timestamp / origin
headers (absent headers are `none`). -/
structure SigRequest where
  portalId : Option ℕ
  signature : Option Str
  sigVersion : Option Str
  timestamp : Option Str
  origin : Option Str

/-- The middleware's outcome: a rejection status, or `next()` either after a
cryptographic verification (`nextVerified`) or through the development
fallback that verifies no signature (`nextBypass`). -/
inductive SigDecision where
  | badRequest400
  | unauthorized401
  | forbidden403
  | nextVerified
  | nextBypass
deriving DecidableEq

/-- `verifyWorkflowActionSignature` (hubspotSignature.js lines 107-170).  The
HMAC comparison itself is an oracle `hmacOk` (the outcome of the selected
`verifySignatureVx` call), and `originOk` models `isValidHubSpotOrigin`.  The
control flow is the source's: missing portalId is a 400; when both a
signature header and a client secret are present the signature is verified
(v3 with a missing timestamp leaves `isValid` false) and the request proceeds
or gets a 401; otherwise production deployments get a 401 and every other
deployment falls to the origin check (403 on a present-but-invalid origin)
and then proceeds unverified. -/
def verifyWorkflowActionSignature (env : SigEnv) (req : SigRequest)
    (hmacOk : Bool) (originOk : Bool) : SigDecision :=
  match req.portalId with
  | none => .badRequest400
  | some _ =>
      match req.signature, env.clientSecret with
      | some _, some _ =>
          let isValid :=
            match req.sigVersion with
            | some v =>
                if v = lit "v3" then
                  match req.timestamp with
                  | some _ => hmacOk
                  | none => false
                else hmacOk
            | none => hmacOk
          if isValid then .nextVerified else .unauthorized401
      | _, _ =>
          if env.nodeEnv = some (lit "production") then .unauthorized401
          else
            match req.origin with
            | some _ => if !originOk then .forbidden403 else .nextBypass
            | none => .nextBypass

/-! ## JSON path extraction (src/routes/actions.js lines 1070-1098) -/

/-- `BLOCKED_PATH_KEYS` (actions.js line 1071). -/
def BLOCKED_PATH_KEYS : List Str :=
  [lit "__proto__", lit "constructor", lit "prototype"]

/-- Own-property lookup on an object's field list (fields are assumed
key-distinct, as produced by JSON parsing). -/
def lookupField : List (Str × JVal) → Str → Option JVal
  | [], _ => none
  | (k, v) :: rest, key => if k = key then some v else lookupField rest key

/-- JS property read `value[key]` for the value shapes handled here
(objects by field name, arrays by decimal index; anything else yields
`undefined`). -/
def jvGet (v : JVal) (key : Str) : JVal :=
  match v with
  | .o fields => (lookupField fields key).getD .undefined
  | .arr xs =>
      if !key.isEmpty && key.all Char.isDigit then ((xs.get? (digitsVal key)).getD .undefined)
      else .undefined
  | _ => .undefined

/-- `Object.prototype.hasOwnProperty.call(value, key)` for those shapes. -/
def jvHasOwn (v : JVal) (key : Str) : Bool :=
  match v with
  | .o fields => (lookupField fields key).isSome
  | .arr xs => !key.isEmpty && key.all Char.isDigit && digitsVal key < xs.length
  | _ => false

/-- `null` or `undefined`. -/
def isNullOrUndefinedVal : JVal → Bool
  | .null => true
  | .undefined => true
  | _ => false

/-- The key regex `^(\w+)\[(\d+)\]$` of the array-index notation. -/
def arrayKeyMatch (part : Str) : Option (Str × ℕ) :=
  let name := part.takeWhile isWordChar
  if name.isEmpty then none
  else
    match part.drop name.length with
    | '[' :: rest =>
        let ds := rest.takeWhile Char.isDigit
        if ds.isEmpty then none
        else
          match rest.drop ds.length with
          | [']'] => some (name, digitsVal ds)
          | _ => none
    | _ => none

/-- The key-by-key loop of `getNestedValue` (actions.js lines 1077-1097):
a `null`/`undefined` value or a blocked key yields `''`; array-index keys
read the property and then index, requiring an array; plain keys require an
own property.  The empty key list performs the final
`value !== undefined ? value : ''` step. -/
def getNestedGo : JVal → List Str → JVal
  | value, [] =>
      match value with
      | .undefined => .s []
      | v => v
  | value, key :: rest =>
      if isNullOrUndefinedVal value then .s []
      else
        match arrayKeyMatch key with
        | some (name, idx) =>
            if BLOCKED_PATH_KEYS.contains name then .s []
            else
              match jvGet value name with
              | .arr xs => getNestedGo ((xs.get? idx).getD .undefined) rest
              | _ => .s []
        | none =>
            if BLOCKED_PATH_KEYS.contains key then .s []
            else if !(jvHasOwn value key) then .s []
            else getNestedGo (jvGet value key) rest

/-- `getNestedValue` (actions.js lines 1074-1098). -/
def getNestedValue (obj : JVal) (path : Str) : JVal :=
  if path.isEmpty then obj
  else getNestedGo obj (path.splitOn '.')

/-! ## Formula evaluator (src/routes/actions.js lines 38-206) -/

/-- Matcher for the placeholder regex `/\{\{([^}]+)\}\}/g` of `evaluateFormula`
(actions.js lines 42-46): two opening braces, at least one non-closing-brace
character, two closing braces.  The replacement is
`value !== undefined && value !== null ? String(value) : ''` of
`getNestedValue props path.trim()`. -/
def curlyStep (props : JVal) (s : Str) : Option (Str × ℕ) :=
  if s.take 2 = [braceL, braceL] then
    let inner := (s.drop 2).takeWhile (· ≠ braceR)
    if inner.isEmpty then none
    else if (s.drop (2 + inner.length)).take 2 = [braceR, braceR] then
      let value := getNestedValue props (jsTrim inner)
      let rep :=
        match value with
        | .undefined => ([] : Str)
        | .null => []
        | v => jsValToStr v
      some (rep, inner.length + 4)
    else none
  else none

/-- Matcher for `/\[\[([^\]]+)\]\]/g` (actions.js lines 49-52): numbered-input
placeholders, replaced by `inputs[name.trim()]` when present and non-null. -/
def squareStep (inputs : List (Str × JVal)) (s : Str) : Option (Str × ℕ) :=
  if s.take 2 = ['[', '['] then
    let inner := (s.drop 2).takeWhile (· ≠ ']')
    if inner.isEmpty then none
    else if (s.drop (2 + inner.length)).take 2 = [']', ']'] then
      let rep :=
        match lookupField inputs (jsTrim inner) with
        | some v => if isNullOrUndefinedVal v then [] else jsValToStr v
        | none => []
      some (rep, inner.length + 4)
    else none
  else none

/-- `splitArgs` (actions.js lines 188-206): split on commas at parenthesis
depth zero, trimming each part; the final part is kept only when non-empty. -/
def splitArgsAux : Str → ℤ → Str → List Str → List Str
  | [], _, current, acc =>
      if (jsTrim current).isEmpty then acc else acc ++ [jsTrim current]
  | c :: rest, depth, current, acc =>
      if c = '(' then splitArgsAux rest (depth + 1) (current ++ [c]) acc
      else if c = ')' then splitArgsAux rest (depth - 1) (current ++ [c]) acc
      else if c = ',' && depth = 0 then splitArgsAux rest depth [] (acc ++ [jsTrim current])
      else splitArgsAux rest depth (current ++ [c]) acc

/-- `splitArgs` entry point. -/
def splitArgs (argsString : Str) : List Str := splitArgsAux argsString 0 [] []

/-- Case-insensitive match of `name(` at the current position; returns the
remainder after the opening parenthesis.  (`name` is given lower-case; the
source patterns all carry the `i` flag.) -/
def nameOpen (name : Str) (s : Str) : Option Str :=
  if hasPre (name ++ ['(']) (asciiLower s) then some (s.drop (name.length + 1))
  else none

/-- Capture of a `([^)]*)\)` argument: the characters before the first closing
parenthesis, which must exist; returns the capture and the consumed length. -/
def parenArg (rest : Str) : Option (Str × ℕ) :=
  let arg := rest.takeWhile (· ≠ ')')
  if (rest.drop arg.length).head? = some ')' then some (arg, arg.length + 1) else none

/-- A one-argument function rule `/name\(([^)]*)\)/gi` with replacement `f`. -/
def simpleFnStep (name : Str) (f : Str → Str) (s : Str) : Option (Str × ℕ) :=
  match nameOpen name s with
  | some rest => (parenArg rest).map (fun p => (f p.1, name.length + 1 + p.2))
  | none => none

/-- `text.replace(/\b\w/g, c => c.toUpperCase())` — the `capitalize` body. -/
def capitalizeWords (s : Str) : Str := go none s
where
  /-- Walk with the previous character to detect `\b` word boundaries. -/
  go : Option Char → Str → Str
  | _, [] => []
  | prev, c :: rest =>
      let boundary := match prev with | none => true | some p => !isWordChar p
      (if boundary && isWordChar c then c.toUpper else c) :: go (some c) rest

/-- JS `text.substring(start[, end])` with clamping and argument swapping. -/
def jsSubstring (t : Str) (a : ℕ) (b : Option ℕ) : Str :=
  let e := match b with | some e => min e t.length | none => t.length
  let s := min a t.length
  (t.drop (min s e)).take (max s e - min s e)

/-- `text.split(search).join(replacement)`.  A non-empty separator is replaced
occurrence by occurrence, left to right; the empty separator splits into
single characters. -/
def strSplitJoin (t sep rep : Str) : Str :=
  if sep.isEmpty then (t.map (fun c => [c])).intersperse rep |>.flatten
  else replaceScan (fun s => if hasPre sep s then some (rep, sep.length) else none) t

/-- Capture of a `([^,]+),` group: the (non-empty) characters before the first
comma, which must exist; returns the capture and the remainder after the
comma. -/
def commaArg (rest : Str) : Option (Str × Str) :=
  let arg := rest.takeWhile (· ≠ ',')
  if arg.isEmpty then none
  else
    match rest.drop arg.length with
    | ',' :: r => some (arg, r)
    | _ => none

/-- Matcher for `/substring\(([^,]+),\s*(\d+)(?:,\s*(\d+))?\)/gi`
(actions.js lines 104-110). -/
def substringStep (s : Str) : Option (Str × ℕ) :=
  match nameOpen (lit "substring") s with
  | none => none
  | some rest =>
      match commaArg rest with
      | none => none
      | some (g1, r1) =>
          let sp1 := (r1.takeWhile isJsSpace).length
          let d1 := (r1.drop sp1).takeWhile Char.isDigit
          if d1.isEmpty then none
          else
            let r2 := r1.drop (sp1 + d1.length)
            let base := 10 + g1.length + 1 + sp1 + d1.length
            let withOpt : Option (Str × ℕ) :=
              match r2 with
              | ',' :: r3 =>
                  let sp2 := (r3.takeWhile isJsSpace).length
                  let d2 := (r3.drop sp2).takeWhile Char.isDigit
                  if d2.isEmpty then none
                  else
                    match r3.drop (sp2 + d2.length) with
                    | ')' :: _ =>
                        some (jsSubstring g1 (digitsVal d1) (some (digitsVal d1 + digitsVal d2)),
                              base + 1 + sp2 + d2.length + 1)
                    | _ => none
              | _ => none
          match withOpt with
          | some r => some r
          | none =>
              match r2 with
              | ')' :: _ => some (jsSubstring g1 (digitsVal d1) none, base + 1)
              | _ => none

/-- Shared matcher shape `..\(([^,]+),\s*([^,]+),\s*([^)]*)\)` used by the
`replace` and `if` rules: three captures and the total consumed length after
the opening parenthesis. -/
def threeArgs (rest : Str) : Option (Str × Str × Str × ℕ) :=
  match commaArg rest with
  | none => none
  | some (g1, r1) =>
      let sp1 := (r1.takeWhile isJsSpace).length
      match commaArg (r1.drop sp1) with
      | none => none
      | some (g2, r2) =>
          let sp2 := (r2.takeWhile isJsSpace).length
          match parenArg (r2.drop sp2) with
          | none => none
          | some (g3, used3) =>
              some (g1, g2, g3, g1.length + 1 + sp1 + g2.length + 1 + sp2 + used3)

/-- Matcher for `/replace\(([^,]+),\s*([^,]+),\s*([^)]*)\)/gi`
(actions.js lines 113-115): `text.split(search).join(replacement)`. -/
def replaceFnStep (s : Str) : Option (Str × ℕ) :=
  match nameOpen (lit "replace") s with
  | none => none
  | some rest =>
      (threeArgs rest).map (fun (g1, g2, g3, used) =>
        (strSplitJoin g1 g2 g3, 8 + used))

/-- The `if` truthiness test (actions.js lines 124-125): a captured condition
is falsy when it is one of the literals `false`, `0`, `null`, `undefined` or
trims to the empty string. -/
def ifTruthy (cond : Str) : Bool :=
  !(cond = lit "false" || cond = lit "0" || cond = lit "null" || cond = lit "undefined") &&
  !(jsTrim cond).isEmpty

/-- Matcher for `/if\(([^,]+),\s*([^,]+),\s*([^)]*)\)/gi`
(actions.js lines 123-127). -/
def ifStep (s : Str) : Option (Str × ℕ) :=
  match nameOpen (lit "if") s with
  | none => none
  | some rest =>
      (threeArgs rest).map (fun (g1, g2, g3, used) =>
        (if ifTruthy g1 then g2 else g3, 3 + used))

/-- Matcher for `/default\(([^,]*),\s*([^)]*)\)/gi` (actions.js lines
130-132): the first capture may be empty; a falsy-or-blank value falls back. -/
def defaultStep (s : Str) : Option (Str × ℕ) :=
  match nameOpen (lit "default") s with
  | none => none
  | some rest =>
      let g1 := rest.takeWhile (· ≠ ',')
      match rest.drop g1.length with
      | ',' :: r1 =>
          let sp := (r1.takeWhile isJsSpace).length
          (parenArg (r1.drop sp)).map (fun (g2, used2) =>
            (if !g1.isEmpty && !(jsTrim g1).isEmpty then g1 else g2,
             8 + g1.length + 1 + sp + used2))
      | _ => none

/-- The `round` replacement body (actions.js lines 136-140): a `NaN` argument
is echoed back, otherwise `String(Math.round(n*10^d)/10^d)`. -/
def roundRepl (num : Str) (decimals : Option ℕ) : Str :=
  match jsParseFloat num with
  | none => num
  | some n =>
      let d := decimals.getD 0
      let factor : JsNum := JsNum.ofInt ((10 : ℤ) ^ d)
      jsNumToStr ((JsNum.ofInt (n.mul factor).round).div factor)

/-- Matcher for `/round\(([^,]+)(?:,\s*(\d+))?\)/gi` (actions.js lines
135-141).  The greedy first capture runs to the first comma; when the
optional `,\s*(\d+)` group cannot complete the match, the engine backtracks
to the longest comma-free prefix followed directly by `)`. -/
def roundStep (s : Str) : Option (Str × ℕ) :=
  match nameOpen (lit "round") s with
  | none => none
  | some rest =>
      let g1 := rest.takeWhile (· ≠ ',')
      let withOpt : Option (Str × ℕ) :=
        if g1.isEmpty then none
        else
          match rest.drop g1.length with
          | ',' :: r1 =>
              let sp := (r1.takeWhile isJsSpace).length
              let d := (r1.drop sp).takeWhile Char.isDigit
              if d.isEmpty then none
              else
                match r1.drop (sp + d.length) with
                | ')' :: _ =>
                    some (roundRepl g1 (some (digitsVal d)),
                          6 + g1.length + 1 + sp + d.length + 1)
                | _ => none
          | _ => none
      match withOpt with
      | some r => some r
      | none =>
          ((List.range g1.length).reverse.map (· + 1)).findSome? fun L =>
            if (rest.drop L).head? = some ')' then
              some (roundRepl (rest.take L) none, 6 + L + 1)
            else none

/-- A `/name\(([^)]+)\)/gi` numeric rule (`floor`, `ceil`, `abs`): the capture
must be non-empty; a `NaN` argument is echoed back. -/
def numFnStep (name : Str) (f : JsNum → Str) (s : Str) : Option (Str × ℕ) :=
  match nameOpen name s with
  | none => none
  | some rest =>
      match parenArg rest with
      | some (arg, used) =>
          if arg.isEmpty then none
          else
            some ((match jsParseFloat arg with | none => arg | some n => f n),
                  name.length + 1 + used)
      | none => none

/-- A numeric token `\d+(?:\.\d+)?`: the token text and its length. -/
def numTok (s : Str) : Option (Str × ℕ) :=
  let d1 := s.takeWhile Char.isDigit
  if d1.isEmpty then none
  else
    match s.drop d1.length with
    | '.' :: r =>
        let d2 := r.takeWhile Char.isDigit
        if d2.isEmpty then some (d1, d1.length)
        else some (d1 ++ '.' :: d2, d1.length + 1 + d2.length)
    | _ => some (d1, d1.length)

/-- The numeric value of a numeric token (always parses). -/
def tokVal (t : Str) : JsNum := (jsParseFloat t).getD (JsNum.ofInt 0)

/-- Matcher for a binary arithmetic pattern
`(\d+(?:\.\d+)?) SEP (\d+(?:\.\d+)?)` where `SEP` is the operator with its
surrounding whitespace classes; `spaceReq` demands at least one space on each
side (the subtraction rule uses `\s+`, the others `\s*`). -/
def binOpStep (op : Char) (spaceReq : Bool) (f : JsNum → JsNum → Str) (s : Str) :
    Option (Str × ℕ) :=
  match numTok s with
  | none => none
  | some (a, la) =>
      let r1 := s.drop la
      let sp1 := (r1.takeWhile isJsSpace).length
      if spaceReq && sp1 = 0 then none
      else
        match r1.drop sp1 with
        | c :: r2 =>
            if c = op then
              let sp2 := (r2.takeWhile isJsSpace).length
              if spaceReq && sp2 = 0 then none
              else
                match numTok (r2.drop sp2) with
                | some (b, lb) => some (f (tokVal a) (tokVal b), la + sp1 + 1 + sp2 + lb)
                | none => none
            else none
        | [] => none

/-- Driver for a global replacement pass whose matcher has a lookbehind: the
matcher also receives the character preceding the current position in the
original string (lookbehinds inspect the input, not the replacements). -/
def replaceScanCtxFuel (step : Option Char → Str → Option (Str × ℕ)) :
    ℕ → Option Char → Str → Str
  | 0, _, s => s
  | _, _, [] => []
  | fuel + 1, prev, s@(c :: rest) =>
      match step prev s with
      | some (rep, used) =>
          if used = 0 then c :: replaceScanCtxFuel step fuel (some c) rest
          else rep ++ replaceScanCtxFuel step fuel (s.take used).getLast? (s.drop used)
      | none => c :: replaceScanCtxFuel step fuel (some c) rest

/-- Entry point of the lookbehind-aware driver. -/
def replaceScanCtx (step : Option Char → Str → Option (Str × ℕ)) (s : Str) : Str :=
  replaceScanCtxFuel step s.length none s

/-- The division replacement (actions.js lines 165-169): a zero divisor
yields the `ERROR:DIV/0` sentinel. -/
def divRepl (a b : JsNum) : Str :=
  if b.isZero then lit "ERROR:DIV/0" else jsNumToStr (a.div b)

/-- Matcher for the addition rule (actions.js lines 170-172), with the
lookbehind `(?<![.\w-])`. -/
def plusStep (prev : Option Char) (s : Str) : Option (Str × ℕ) :=
  let bad := match prev with
    | some p => p = '.' || isWordChar p || p = '-'
    | none => false
  if bad then none
  else binOpStep '+' false (fun a b => jsNumToStr (a.add b)) s

/-- Matcher for the subtraction rule (actions.js lines 173-175):
`(?<![.\w])(\d+(?:\.\d+)?)\s+-\s+(\d+(?:\.\d+)?)` — the spaces around the
minus sign are mandatory. -/
def minusStep (prev : Option Char) (s : Str) : Option (Str × ℕ) :=
  let bad := match prev with
    | some p => p = '.' || isWordChar p
    | none => false
  if bad then none
  else binOpStep '-' true (fun a b => jsNumToStr (a.sub b)) s

/-- One pass of the body of `processFormulaFunctions` (actions.js lines
69-180): all function rules and then the four arithmetic rules, applied in
the source's textual order. -/
def applyAllRules (s : Str) : Str :=
  let s := replaceScan (simpleFnStep (lit "concat") (fun args => (splitArgs args).flatten)) s
  let s := replaceScan (simpleFnStep (lit "upper") asciiUpper) s
  let s := replaceScan (simpleFnStep (lit "lower") asciiLower) s
  let s := replaceScan (simpleFnStep (lit "trim") jsTrim) s
  let s := replaceScan (simpleFnStep (lit "trimall") (fun t => t.filter (fun c => !isJsSpace c))) s
  let s := replaceScan (simpleFnStep (lit "capitalize") capitalizeWords) s
  let s := replaceScan substringStep s
  let s := replaceScan replaceFnStep s
  let s := replaceScan (simpleFnStep (lit "length") (fun t => natToStr t.length)) s
  let s := replaceScan ifStep s
  let s := replaceScan defaultStep s
  let s := replaceScan roundStep s
  let s := replaceScan (numFnStep (lit "floor") (fun n => intToStr n.floorInt)) s
  let s := replaceScan (numFnStep (lit "ceil") (fun n => intToStr n.ceilInt)) s
  let s := replaceScan (numFnStep (lit "abs") (fun n => jsNumToStr n.abs)) s
  let s := replaceScan (binOpStep '*' false (fun a b => jsNumToStr (a.mul b))) s
  let s := replaceScan (binOpStep '/' false divRepl) s
  let s := replaceScanCtx plusStep s
  let s := replaceScanCtx minusStep s
  s

/-- The fixed-point iteration of `processFormulaFunctions` (actions.js lines
63-183): apply the rule passes up to 50 times, stopping when a pass changes
nothing. -/
def funcLoop : ℕ → Str → Str
  | 0, s => s
  | fuel + 1, s =>
      let s' := applyAllRules s
      if s' = s then s else funcLoop fuel s'

/-- `processFormulaFunctions` (actions.js lines 63-183). -/
def processFormulaFunctions (formula : Str) : Str := funcLoop 50 formula

/-- `evaluateFormula` (actions.js lines 38-58): substitute `(doubled-brace)`
property placeholders against `object.properties || object`, then
`[[input]]` placeholders, then reduce the function rules. -/
def evaluateFormula (formula : Str) (object : JVal) (inputs : List (Str × JVal)) : Str :=
  let props :=
    match object with
    | .o fields =>
        match lookupField fields (lit "properties") with
        | some p => if jsTruthy p then p else object
        | none => object
    | _ => object
  let r1 := replaceScan (curlyStep props) formula
  let r2 := replaceScan (squareStep inputs) r1
  processFormulaFunctions r2

/-! ## Sandbox worker result shaping (src/unnamed/part_008 lines 88-137) -/

/-- The worker's posted output on success (part_008 lines 120-137).  The
wrapped code (lines 88-110) invokes the user function via `new Function`,
discards its return value, and returns the sandbox `output` object, so the
awaited `result` is that object; the posted field is
`result || sandbox.output` (line 134), and an object is always truthy. -/
def workerPostedOutput (userReturn : JVal) (output : List (Str × JVal)) :
    List (Str × JVal) :=
  let result := JVal.o output
  match (if jsTruthy result then result else JVal.o output), userReturn with
  | .o fields, _ => fields
  | _, _ => output

/-- Modelled from the spec (§4.4.4 / claim C9), for comparison with the code:
a non-object return becomes the single field `output_1 = String(result)`; an
object return takes the first five own-property values in insertion order,
each stringified. -/
def specShapeResult (ret : JVal) : List (Str × Str) :=
  match ret with
  | .o fields =>
      (fields.take 5).enum.map (fun p => (lit "output_" ++ natToStr (p.1 + 1), jsValToStr p.2.2))
  | _ => [(lit "output_1", jsValToStr ret)]

/-! ## Secret resolution for the code action (src/routes/actions.js lines
439-468) -/

/-- A stored secret document, reduced to the fields the resolution loop and
the usage update read. -/
structure SecretDoc where
  sid : ℕ
  name : Str
  usageCount : ℕ
deriving DecidableEq

/-- The reference scan (actions.js lines 444-446): the code must contain
`secrets.NAME`, `secrets['NAME']` or `secrets["NAME"]` as a substring. -/
def isReferenced (code : Str) (name : Str) : Bool :=
  strContains code (lit "secrets." ++ name) ||
  strContains code (lit "secrets[" ++ quoteS :: name ++ [quoteS, ']']) ||
  strContains code (lit "secrets[" ++ quoteD :: name ++ [quoteD, ']'])

/-- The secret-resolution loop (actions.js lines 440-460): unreferenced
secrets are skipped entirely; referenced ones are decrypted (the oracle
returns `none` when `decrypt` throws, in which case the map stores `null`
and the id is excluded from the usage update).  Returns the secrets map and
the ids collected for the single bulk usage update, in document order. -/
def resolveSecrets (code : Str) (docs : List SecretDoc)
    (decryptOracle : SecretDoc → Option Str) :
    List (Str × Option Str) × List ℕ :=
  match docs with
  | [] => ([], [])
  | d :: rest =>
      let (m, ids) := resolveSecrets code rest decryptOracle
      if !(isReferenced code d.name) then (m, ids)
      else
        match decryptOracle d with
        | some v => ((d.name, some v) :: m, d.sid :: ids)
        | none => ((d.name, none) :: m, ids)

/-- The single `Secret.updateMany` bulk update (actions.js lines 463-468):
`$inc: usageCount` by one for exactly the documents whose id is in the update
set. -/
def applyBulkUsageUpdate (docs : List SecretDoc) (ids : List ℕ) : List SecretDoc :=
  docs.map (fun d =>
    if ids.contains d.sid then { d with usageCount := d.usageCount + 1 } else d)

/-! ## Route handlers (src/routes/actions.js) -/

/-- An HTTP response of an action route: status code and the `outputFields`
body. -/
structure ActionResponse where
  status : ℕ
  outputFields : List (Str × JVal)

/-- A handler's observable outcome: its response and the `logger.error`
messages it emitted. -/
structure HandlerOut where
  response : ActionResponse
  logs : List Str

/-- The webhook handler's catch path (actions.js lines 352-377): log, write a
best-effort error execution record (its own failure only logged), and respond
200 with a sanitized error. -/
def webhookCatch (msg : Str) (execCreateCatch : Except Str Unit) : HandlerOut :=
  { response :=
      ⟨200, [(lit "hubhacks_success", JVal.b false),
             (lit "hubhacks_error", JVal.s (sanitizeErrorMessage msg))]⟩
    logs := lit "Webhook action error" ::
      (match execCreateCatch with
       | .error _ => [lit "Failed to log webhook error execution"]
       | .ok _ => []) }

/-- The `executeWebhook` result fields the webhook route reads (actions.js
lines 291-341). -/
structure WebhookResult where
  success : Bool
  status : Str
  httpStatusCode : Option ℕ
  errorMessage : Option Str
  retriesUsed : ℕ

/-- The webhook route handler (actions.js lines 213-378), for requests
without `outputMappings`.  A missing `webhookUrl` returns HTTP 400 with only
an error field (lines 238-244).  Otherwise the status fields are assembled
(lines 311-317), then `Execution.create` and `Usage.recordExecution` are
awaited inside the same `try`, so a rejection of either lands in the catch
path and replaces the response. -/
def webhookHandler (webhookUrl : Option Str) (result : WebhookResult)
    (execCreate usageRecord execCreateCatch : Except Str Unit) : HandlerOut :=
  match webhookUrl with
  | none =>
      { response := ⟨400, [(lit "hubhacks_error", JVal.s (lit "Missing webhook URL"))]⟩
        logs := [] }
  | some _ =>
      let outputFields :=
        [(lit "hubhacks_success", JVal.b result.success),
         (lit "hubhacks_status_code",
          match result.httpStatusCode with
          | some c => JVal.n (JsNum.ofInt c)
          | none => JVal.undefined),
         (lit "hubhacks_retries_used", JVal.n (JsNum.ofInt result.retriesUsed))] ++
        (if result.success then []
         else [(lit "hubhacks_error",
                match result.errorMessage with
                | some m => JVal.s m
                | none => JVal.undefined)])
      match execCreate with
      | .error e => webhookCatch e execCreateCatch
      | .ok _ =>
          match usageRecord with
          | .error e => webhookCatch e execCreateCatch
          | .ok _ => { response := ⟨200, outputFields⟩, logs := [] }

/-- The `executeCode` result fields the code route reads (actions.js lines
479-528). -/
structure CodeExecResult where
  success : Bool
  status : Str
  output : List (Str × JVal)
  errorMessage : Option Str

/-- The code handler's catch path (actions.js lines 531-554). -/
def codeCatch (msg : Str) (execCreateCatch : Except Str Unit) : HandlerOut :=
  { response :=
      ⟨200, [(lit "hubhacks_success", JVal.b false),
             (lit "hubhacks_error", JVal.s (sanitizeErrorMessage msg))]⟩
    logs := lit "Code action error" ::
      (match execCreateCatch with
       | .error _ => [lit "Failed to log code error execution"]
       | .ok _ => []) }

/-- The output-field assembly of the code route (actions.js lines 487-495):
`hubhacks_success`, then the worker's output entries spread in, then
`hubhacks_error` when the run failed. -/
def codeRouteOutputFields (success : Bool) (output : List (Str × JVal))
    (errorMessage : Option Str) : List (Str × JVal) :=
  (lit "hubhacks_success", JVal.b success) :: output ++
  (if success then []
   else [(lit "hubhacks_error",
          match errorMessage with
          | some m => JVal.s m
          | none => JVal.undefined)])

/-- A 200 response carrying `hubhacks_success: false` and an error text. -/
def failFields (msg : Str) : ActionResponse :=
  ⟨200, [(lit "hubhacks_success", JVal.b false), (lit "hubhacks_error", JVal.s msg)]⟩

/-- The code route handler (actions.js lines 384-555): code selection
(snippet lookup, oversize inline code, no code), then the result's output
fields; `Execution.create`, the snippet-stats save, and
`Usage.recordExecution` are awaited inside the same `try`, so a rejection of
any of them lands in the catch path. -/
def codeHandler (snippetId : Option Str) (inlineCode : Option Str)
    (snippetCode : Option Str) (execResult : CodeExecResult)
    (execCreate snippetSave usageRecord execCreateCatch : Except Str Unit) : HandlerOut :=
  let proceed := fun (hasSnippet : Bool) =>
    let outputFields :=
      codeRouteOutputFields execResult.success execResult.output execResult.errorMessage
    match execCreate with
    | .error e => codeCatch e execCreateCatch
    | .ok _ =>
        match (if hasSnippet then snippetSave else .ok ()) with
        | .error e => codeCatch e execCreateCatch
        | .ok _ =>
            match usageRecord with
            | .error e => codeCatch e execCreateCatch
            | .ok _ => { response := ⟨200, outputFields⟩, logs := [] }
  match snippetId with
  | some _ =>
      match snippetCode with
      | none => { response := failFields (lit "Snippet not found"), logs := [] }
      | some _ => proceed true
  | none =>
      match inlineCode with
      | some c =>
          if c.length > 50000 then
            { response := failFields (lit "Inline code too long (" ++ natToStr c.length ++
                lit " chars). Maximum is 50000 characters."), logs := [] }
          else proceed false
      | none =>
          { response := failFields (lit "No code provided (specify snippetId or inlineCode)")
            logs := [] }

/-- The outcome of the format handler's standard-operation `switch`
(actions.js lines 682-971): a computed result value with its optional
numeric twin, or one of the two early error returns inside the switch (the
divide-by-zero return of lines 842-847 and the unknown-operation default of
lines 964-970) — both of which are 200 responses. -/
inductive FormatOpOutcome where
  | value (result : JVal) (resultNumber : Option JsNum)
  | earlyError (msg : Str)

/-- The format handler's standard-mode catch path (actions.js lines
1002-1024), which sanitizes. -/
def formatCatch (msg : Str) (execCreateCatch : Except Str Unit) : HandlerOut :=
  { response := failFields (sanitizeErrorMessage msg)
    logs := lit "Format action error" ::
      (match execCreateCatch with
       | .error _ => [lit "Failed to log format error execution"]
       | .ok _ => []) }

/-- The custom-mode formula catch path (actions.js lines 634-654): the raw
`Formula error: <message>` text, not sanitized. -/
def formulaCatch (msg : Str) (execCreateCatch : Except Str Unit) : HandlerOut :=
  { response := failFields (lit "Formula error: " ++ msg)
    logs :=
      match execCreateCatch with
      | .error _ => [lit "Failed to log formula error execution"]
      | .ok _ => [] }

/-- The format route handler (actions.js lines 561-1025).  Custom mode is
entered on a `customMode` flag of `true`/`'true'` or a formula without an
operation (line 582); it validates and evaluates the formula and responds
200.  Standard mode validates the operation and input lengths and responds
200 from every arm.  The record writes are awaited inside `try`, so their
rejections land in the respective catch paths. -/
def formatHandler (customMode : Option JVal) (formula : Option Str)
    (operation : Option Str) (input1 input2 input3 : Option Str)
    (object : JVal) (inputFields : List (Str × JVal))
    (opOutcome : FormatOpOutcome)
    (execCreate usageRecord execCreateCatch : Except Str Unit) : HandlerOut :=
  let operationTruthy := match operation with | some s => !s.isEmpty | none => false
  let formulaTruthy := match formula with | some s => !s.isEmpty | none => false
  let customOn :=
    (match customMode with
     | some (.b true) => true
     | some (.s v) => v = lit "true"
     | _ => false) || (formulaTruthy && !operationTruthy)
  if customOn then
    match formula with
    | none => { response := failFields (lit "No formula specified in custom mode"), logs := [] }
    | some f =>
        if f.isEmpty then
          { response := failFields (lit "No formula specified in custom mode"), logs := [] }
        else if f.length > 5000 then
          { response := failFields (lit "Formula too long (" ++ natToStr f.length ++
              lit " chars). Maximum is 5000 characters."), logs := [] }
        else
          let result := evaluateFormula f object inputFields
          let resultNumber := jsParseFloat result
          match execCreate with
          | .error e => formulaCatch e execCreateCatch
          | .ok _ =>
              match usageRecord with
              | .error e => formulaCatch e execCreateCatch
              | .ok _ =>
                  { response :=
                      ⟨200, [(lit "hubhacks_success", JVal.b true),
                             (lit "result", JVal.s result),
                             (lit "result_number",
                              match resultNumber with
                              | some q => JVal.n q
                              | none => JVal.null)]⟩
                    logs := [] }
  else if !operationTruthy then
    { response := failFields (lit "No operation specified"), logs := [] }
  else
    let tooLong := fun (label : Str) (v : Option Str) =>
      match v with
      | some s => if !s.isEmpty && s.length > 10000 then
            some (label ++ lit " too long (" ++ natToStr s.length ++
                  lit " chars). Maximum is 10000 characters.")
          else none
      | none => none
    match tooLong (lit "input1") input1 with
    | some m => { response := failFields m, logs := [] }
    | none =>
    match tooLong (lit "input2") input2 with
    | some m => { response := failFields m, logs := [] }
    | none =>
    match tooLong (lit "input3") input3 with
    | some m => { response := failFields m, logs := [] }
    | none =>
    match opOutcome with
    | .earlyError m => { response := failFields m, logs := [] }
    | .value r n =>
        match execCreate with
        | .error e => formatCatch e execCreateCatch
        | .ok _ =>
            match usageRecord with
            | .error e => formatCatch e execCreateCatch
            | .ok _ =>
                { response :=
                    ⟨200, [(lit "hubhacks_success", JVal.b true),
                           (lit "result", r),
                           (lit "result_number",
                            match n with
                            | some q => JVal.n q
                            | none => JVal.null)]⟩
                  logs := [] }

/-! ## Concrete fixtures used by witnesses -/

/-- A rebinding resolver: public address on the first (validation) lookup,
private address on every later one. -/
def rebindResolver : Resolver := fun n =>
  if n = 0 then .ok [⟨lit "93.184.216.34", 4⟩] else .ok [⟨lit "10.0.0.1", 4⟩]

/-- A hostname-target webhook URL. -/
def exHostUrl : ParsedUrl := ⟨lit "http:", lit "api.example.com", [], []⟩

/-- The retry configuration the webhook route builds from its defaults
(actions.js lines 283-288 merged over `DEFAULT_RETRY_CONFIG`). -/
def routeRetryConfig : RetryConfig :=
  { DEFAULT_RETRY_CONFIG with
    maxRetries := 3, initialDelayMs := 1000, maxDelayMs := 10000, backoffMultiplier := 2 }

/-- Two stored secrets of one tenant. -/
def exSecretDocs : List SecretDoc :=
  [⟨1, lit "API_KEY", 5⟩, ⟨2, lit "OTHER", 7⟩]

/-- A user source referencing only `secrets.API_KEY`. -/
def exCode : Str := lit "const k = secrets.API_KEY; return k;"

/-! # Theorems -/

/-! ### C1 — SSRF guard on IP literals -/

/-- Helper: the guard rejects whenever the (lowercased) hostname is an IPv4
literal matching the blocked-pattern list. -/
theorem validateWebhookUrl_ipv4_blocked (u : ParsedUrl)
    (h1 : (ipv4Parts (asciiLower u.hostname)).isSome = true)
    (h2 : blockedIpPatternsTest (asciiLower u.hostname) = true) :
    validateWebhookUrl u = false := by
  simp [validateWebhookUrl, h1, h2]

/-- C1: `225.0.0.1` lies in the IPv4 multicast range (224.0.0.0/4) that the
claim — and the pattern's own source comment `Multicast (224.0.0.0/4)` —
requires to be rejected, it is an IP-literal host, yet `validateWebhookUrl`
accepts `http://225.0.0.1/` (the regex only covers `224.*`), and the webhook
pipeline proceeds to connect to it. -/
theorem C1_counterexample :
    specBlockedIPv4 225 0 ∧
    ipv4Parts (lit "225.0.0.1") = some (225, 0, 0, 1) ∧
    validateWebhookUrl ⟨lit "http:", lit "225.0.0.1", [], []⟩ = true ∧
    webhookConnectTargets (fun _ => .ok [⟨lit "225.0.0.1", 4⟩])
        ⟨lit "http:", lit "225.0.0.1", [], []⟩ 1 =
      some ([[⟨lit "225.0.0.1", 4⟩]], 1) := by
  refine ⟨by decide, by decide, by decide, by decide⟩

/-- Supporting characterization for C1: the guard rejects the IP-literal
hosts matched by its fixed pattern list — which covers the named ranges only
partially (e.g. multicast only as `224.*`) — and it does reject the example URLs
`http://[::1]/` (hostname denylist), `http://169.254.169.254/` (denylist and
pattern), and `http://user:pw@example.com/` (embedded credentials). -/
theorem C1_amended :
    (∀ u : ParsedUrl,
        (ipv4Parts (asciiLower u.hostname)).isSome = true →
        blockedIpPatternsTest (asciiLower u.hostname) = true →
        validateWebhookUrl u = false) ∧
    validateWebhookUrl ⟨lit "http:", lit "[::1]", [], []⟩ = false ∧
    validateWebhookUrl ⟨lit "http:", lit "169.254.169.254", [], []⟩ = false ∧
    validateWebhookUrl ⟨lit "http:", lit "example.com", lit "user", lit "pw"⟩ = false :=
  ⟨validateWebhookUrl_ipv4_blocked, by decide, by decide, by decide⟩

/-- Instance of the characterization at the concrete blocked literal `10.0.0.1`. -/
theorem C1_amended_witness :
    (ipv4Parts (asciiLower (lit "10.0.0.1"))).isSome = true ∧
    blockedIpPatternsTest (asciiLower (lit "10.0.0.1")) = true ∧
    validateWebhookUrl ⟨lit "https:", lit "10.0.0.1", [], []⟩ = false :=
  ⟨by decide, by decide,
   C1_amended.1 ⟨lit "https:", lit "10.0.0.1", [], []⟩ (by decide) (by decide)⟩

/-! ### C2 — DNS resolve-and-pin -/

/-- Helper: with a non-empty pinned address set, every attempt's connection
targets are the pinned set and no DNS call is made. -/
theorem connectLoop_pinned (resolver : Resolver) (addrs : List AddrEntry)
    (h : addrs.isEmpty = false) :
    ∀ k n, connectLoop resolver (some addrs) k n = (List.replicate k addrs, n) := by
  intro k
  induction k with
  | zero => intro n; rfl
  | succ k ih =>
      intro n
      simp only [connectLoop, h, Bool.not_false, if_true, ih n, List.replicate_succ]

/-- C2: for a hostname (non-IP-literal) target that passed URL validation,
the resolver is consulted exactly once, before the first attempt; a resolver
error, an empty answer, or any blocked resolved address rejects the request
before any attempt; and when the request proceeds, every attempt connects
only to the validation-time (pinned) address set — so a resolver that turns
private after validation can never cause a connection to the private
address. -/
theorem C2_resolve_and_pin (resolver : Resolver) (u : ParsedUrl)
    (hv : validateWebhookUrl u = true)
    (hip : ipv4Parts u.hostname = none) :
    (∀ e, resolver 0 = .error e → ∀ k, webhookConnectTargets resolver u k = none) ∧
    (resolver 0 = .ok [] → ∀ k, webhookConnectTargets resolver u k = none) ∧
    (∀ addrs, resolver 0 = .ok addrs →
        addrs.any (fun a => isBlockedIP a.address) = true →
        ∀ k, webhookConnectTargets resolver u k = none) ∧
    (∀ k conns calls, webhookConnectTargets resolver u k = some (conns, calls) →
        calls = 1 ∧
        ∃ addrs, resolver 0 = .ok addrs ∧ addrs ≠ [] ∧
          (∀ a ∈ addrs, isBlockedIP a.address = false) ∧
          conns = List.replicate k addrs) := by
  refine ⟨?_, ?_, ?_, ?_⟩
  · intro e he k
    simp [webhookConnectTargets, hv, validateResolvedIP, hip, he]
  · intro hr k
    simp [webhookConnectTargets, hv, validateResolvedIP, hip, hr]
  · intro addrs hr hany k
    cases addrs with
    | nil => simp at hany
    | cons a as =>
        simp [webhookConnectTargets, hv, validateResolvedIP, hip, hr, hany]
  · intro k conns calls h
    rw [webhookConnectTargets, hv] at h
    rw [validateResolvedIP, hip] at h
    simp only [Bool.not_true, Bool.false_eq_true, if_false, Option.isSome_none] at h
    cases hr : resolver 0 with
    | error e => rw [hr] at h; simp at h
    | ok addrs =>
        rw [hr] at h
        cases addrs with
        | nil => simp at h
        | cons a as =>
            by_cases hb : (a :: as).any (fun x => isBlockedIP x.address) = true
            · simp [hb] at h
            · have hb' : (a :: as).any (fun x => isBlockedIP x.address) = false := by
                revert hb; cases (a :: as).any (fun x => isBlockedIP x.address) <;> simp
              have hpin := connectLoop_pinned resolver (a :: as) (by simp) k 1
              simp only [List.isEmpty_cons, Bool.false_eq_true, if_false, hb', hpin,
                Option.some.injEq, Prod.mk.injEq] at h
              refine ⟨h.2.symm, a :: as, rfl, by simp, ?_, h.1.symm⟩
              intro x hx
              have hx' := List.any_eq_false.mp hb' x hx
              revert hx'; cases isBlockedIP x.address <;> simp

/-- C2 witness: a concrete rebinding resolver (public on call 0, private
afterwards) with four attempts — the pin property instantiated, and the
concrete run showing every attempt connects only to the public address. -/
theorem C2_witness :
    validateWebhookUrl exHostUrl = true ∧
    ipv4Parts exHostUrl.hostname = none ∧
    webhookConnectTargets rebindResolver exHostUrl 4 =
      some (List.replicate 4 [⟨lit "93.184.216.34", 4⟩], 1) ∧
    (∀ k conns calls, webhookConnectTargets rebindResolver exHostUrl k = some (conns, calls) →
        calls = 1 ∧
        ∃ addrs, rebindResolver 0 = .ok addrs ∧ addrs ≠ [] ∧
          (∀ a ∈ addrs, isBlockedIP a.address = false) ∧
          conns = List.replicate k addrs) :=
  ⟨by decide, by decide, by decide,
   (C2_resolve_and_pin rebindResolver exHostUrl (by decide) (by decide)).2.2.2⟩

/-! ### C3 — missing signature in production / development bypass -/

/-- C3 counterexample: a deployment with no environment flag set at all
(`NODE_ENV` absent) receives a signatureless action request and the
middleware reaches the unverified bypass — so the bypass is reachable
without any explicit deployment flag. -/
theorem C3_counterexample :
    verifyWorkflowActionSignature ⟨none, some (lit "secret")⟩
      ⟨some 123, none, none, none, none⟩ false false = SigDecision.nextBypass := by
  rfl

/-- C3 (amended): in production (`NODE_ENV = 'production'`) a request with a
portal id but no signature header is rejected with 401 and the bypass is
unreachable; the bypass is reachable exactly in deployments whose `NODE_ENV`
differs from `'production'` — including deployments that set no flag at
all. -/
theorem C3_amended :
    (∀ (env : SigEnv) (req : SigRequest) (h o : Bool),
        env.nodeEnv = some (lit "production") →
        req.portalId.isSome = true →
        req.signature = none →
        verifyWorkflowActionSignature env req h o = SigDecision.unauthorized401) ∧
    (∀ (env : SigEnv) (req : SigRequest) (h o : Bool),
        verifyWorkflowActionSignature env req h o = SigDecision.nextBypass →
        env.nodeEnv ≠ some (lit "production")) := by
  constructor
  · intro env req h o hprod hpid hsig
    obtain ⟨pid, hp⟩ := Option.isSome_iff_exists.mp hpid
    simp [verifyWorkflowActionSignature, hp, hsig, hprod]
  · intro env req h o hby heq
    rcases env with ⟨ne, cs⟩
    rcases req with ⟨pid, sig, ver, ts, org⟩
    simp only at heq
    subst heq
    cases pid <;> cases sig <;> cases cs <;>
      simp [verifyWorkflowActionSignature] at hby <;>
      split at hby <;> simp_all

/-- C3 amended-claim witness: in production, a signatureless request with a
portal id gets a 401. -/
theorem C3_amended_witness :
    verifyWorkflowActionSignature ⟨some (lit "production"), some (lit "s")⟩
      ⟨some 7, none, none, none, none⟩ true true = SigDecision.unauthorized401 :=
  C3_amended.1 ⟨some (lit "production"), some (lit "s")⟩
    ⟨some 7, none, none, none, none⟩ true true rfl (by decide) rfl

/-! ### C4 — always-200 response contract -/

/-- C4 counterexample: a signed request to the webhook action with no
`webhookUrl` is answered with HTTP 400, not 200 — the missing-URL validation
failure is a non-200 status. -/
theorem C4_counterexample :
    (webhookHandler none ⟨true, lit "success", some 200, none, 0⟩
        (.ok ()) (.ok ()) (.ok ())).response.status = 400 ∧
    (webhookHandler none ⟨true, lit "success", some 200, none, 0⟩
        (.ok ()) (.ok ()) (.ok ())).response.status ≠ 200 := by
  exact ⟨rfl, by decide⟩

/-- C4 (amended): the code and format handlers answer HTTP 200 from every
path, and the webhook handler answers 200 whenever a `webhookUrl` is present;
the one exception is the missing-`webhookUrl` check, which answers HTTP 400
with an `outputFields` body holding only the error text. -/
theorem C4_amended :
    (∀ (url : Str) (result : WebhookResult) (w1 w2 w3 : Except Str Unit),
        (webhookHandler (some url) result w1 w2 w3).response.status = 200) ∧
    (∀ (sid inline scode : Option Str) (res : CodeExecResult)
        (w1 w2 w3 w4 : Except Str Unit),
        (codeHandler sid inline scode res w1 w2 w3 w4).response.status = 200) ∧
    (∀ (cm : Option JVal) (f op i1 i2 i3 : Option Str) (obj : JVal)
        (inf : List (Str × JVal)) (oo : FormatOpOutcome) (w1 w2 w3 : Except Str Unit),
        (formatHandler cm f op i1 i2 i3 obj inf oo w1 w2 w3).response.status = 200) ∧
    (∀ (result : WebhookResult) (w1 w2 w3 : Except Str Unit),
        (webhookHandler none result w1 w2 w3).response =
          ⟨400, [(lit "hubhacks_error", JVal.s (lit "Missing webhook URL"))]⟩) := by
  refine ⟨?_, ?_, ?_, ?_⟩
  · intro url result w1 w2 w3
    cases w1 with
    | error e => rfl
    | ok _ => cases w2 with
      | error e => rfl
      | ok _ => rfl
  · intro sid inline scode res w1 w2 w3 w4
    unfold codeHandler
    cases sid with
    | some s =>
        cases scode with
        | none => rfl
        | some c =>
            dsimp only
            cases w1 with
            | error e => rfl
            | ok _ => cases w2 with
              | error e => rfl
              | ok _ => cases w3 with
                | error e => rfl
                | ok _ => rfl
    | none =>
        cases inline with
        | none => rfl
        | some c =>
            dsimp only
            split
            · rfl
            · cases w1 with
              | error e => rfl
              | ok _ => cases w3 with
                | error e => rfl
                | ok _ => rfl
  · intro cm f op i1 i2 i3 obj inf oo w1 w2 w3
    unfold formatHandler
    dsimp only
    split
    · cases f with
      | none => rfl
      | some s =>
          dsimp only
          split
          · rfl
          · split
            · rfl
            · cases w1 with
              | error e => rfl
              | ok _ => cases w2 with
                | error e => rfl
                | ok _ => rfl
    · split
      · rfl
      · split
        · rfl
        · split
          · rfl
          · split
            · rfl
            · cases oo with
              | earlyError m => rfl
              | value r n =>
                  cases w1 with
                  | error e => rfl
                  | ok _ => cases w2 with
                    | error e => rfl
                    | ok _ => rfl
  · intro result w1 w2 w3
    rfl

/-! ### C5 — best-effort record writes -/

/-- C5 counterexample: with a successful webhook result, a failing
`Execution.create` sends the handler into its catch path, and the caller
receives `success=false` with the storage error instead of the action's own
output fields — the response is not the one a successful write run produces. -/
theorem C5_counterexample :
    (webhookHandler (some (lit "https://api.example.com/hook"))
        ⟨true, lit "success", some 200, none, 0⟩
        (.error (lit "db down")) (.ok ()) (.ok ())).response.outputFields =
      [(lit "hubhacks_success", JVal.b false),
       (lit "hubhacks_error", JVal.s (lit "db down"))] ∧
    (webhookHandler (some (lit "https://api.example.com/hook"))
        ⟨true, lit "success", some 200, none, 0⟩
        (.ok ()) (.ok ()) (.ok ())).response.outputFields =
      [(lit "hubhacks_success", JVal.b true),
       (lit "hubhacks_status_code", JVal.n (JsNum.ofInt 200)),
       (lit "hubhacks_retries_used", JVal.n (JsNum.ofInt 0))] ∧
    ([(lit "hubhacks_success", JVal.b false),
      (lit "hubhacks_error", JVal.s (lit "db down"))] : List (Str × JVal)) ≠
      [(lit "hubhacks_success", JVal.b true),
       (lit "hubhacks_status_code", JVal.n (JsNum.ofInt 200)),
       (lit "hubhacks_retries_used", JVal.n (JsNum.ofInt 0))] := by
  refine ⟨rfl, rfl, ?_⟩
  intro h
  simp at h

/-- C5 (amended): a rejection of the Execution-Record insert or of the
Usage-Counter upsert after the action ran lands in the handler's catch path:
it is logged and still answers HTTP 200, but the `outputFields` are replaced
by `success=false` with the sanitized storage error — the action's own output
fields are discarded, not preserved. -/
theorem C5_amended :
    ∀ (url : Str) (result : WebhookResult) (e : Str) (w3 : Except Str Unit),
      webhookHandler (some url) result (.error e) (.ok ()) w3 = webhookCatch e w3 ∧
      webhookHandler (some url) result (.ok ()) (.error e) w3 = webhookCatch e w3 ∧
      (webhookCatch e w3).response.status = 200 ∧
      (webhookCatch e w3).response.outputFields =
        [(lit "hubhacks_success", JVal.b false),
         (lit "hubhacks_error", JVal.s (sanitizeErrorMessage e))] ∧
      lit "Webhook action error" ∈ (webhookCatch e w3).logs := by
  intro url result e w3
  exact ⟨rfl, rfl, rfl, rfl, by simp [webhookCatch]⟩

/-! ### C6 — retry engine -/

/-- Helper: the backoff delay is exactly
`round(min(initial·multiplierᵏ, max) · (1 + u))` with `u = (2r-1)/4`. -/
theorem calculateBackoffDelay_formula (k : ℕ) (cfg : RetryConfig) (r : ℚ) :
    calculateBackoffDelay k cfg r =
      jsRound ((min (cfg.initialDelayMs * cfg.backoffMultiplier ^ k) cfg.maxDelayMs) *
        (1 + (2 * r - 1) / 4)) := by
  unfold calculateBackoffDelay
  ring_nf

/-- Helper: from attempt `a+1` on, the recorded delays are exactly the
backoff delays for retries `a, a+1, …`, one per recorded attempt. -/
theorem retryLoopAux_delays (cfg : RetryConfig) (f : ℕ → AttemptOutcome) (rand : ℕ → ℚ) :
    ∀ fuel a,
      (retryLoopAux cfg f rand (a + 1) fuel).2.1 =
        (List.range' a (retryLoopAux cfg f rand (a + 1) fuel).1.length).map
          (fun k => calculateBackoffDelay k cfg (rand k)) ∧
      (retryLoopAux cfg f rand (a + 1) fuel).1.length =
        (retryLoopAux cfg f rand (a + 1) fuel).2.1.length := by
  intro fuel
  induction fuel with
  | zero => intro a; simp [retryLoopAux]
  | succ fuel ih =>
      intro a
      simp only [retryLoopAux, gt_iff_lt, Nat.succ_pos, if_true, Nat.add_sub_cancel]
      split
      · exact ⟨rfl, rfl⟩
      · split
        · obtain ⟨ihd, ihl⟩ := ih (a + 1)
          have hr' : List.range' a ((retryLoopAux cfg f rand (a + 1 + 1) fuel).1.length + 1) =
              a :: List.range' (a + 1) (retryLoopAux cfg f rand (a + 1 + 1) fuel).1.length := rfl
          constructor
          · simp only [List.length_cons, hr', List.map_cons, List.singleton_append]
            rw [ihd]
          · simp only [List.length_cons, List.singleton_append]
            rw [ihl]
        · exact ⟨rfl, rfl⟩

/-- Helper: a full run's delays are the backoff delays for retries
`0, …, attempts-2`. -/
theorem retryLoopAux_zero_delays (cfg : RetryConfig) (f : ℕ → AttemptOutcome)
    (rand : ℕ → ℚ) (fuel : ℕ) :
    (retryLoopAux cfg f rand 0 (fuel + 1)).2.1 =
      (List.range ((retryLoopAux cfg f rand 0 (fuel + 1)).1.length - 1)).map
        (fun k => calculateBackoffDelay k cfg (rand k)) := by
  simp only [retryLoopAux, gt_iff_lt, Nat.lt_irrefl, if_false]
  split
  · rfl
  · split
    · obtain ⟨ihd, ihl⟩ := retryLoopAux_delays cfg f rand fuel 0
      simp only [List.length_cons, List.nil_append, Nat.add_sub_cancel]
      rw [ihd, List.range_eq_range']
    · rfl

/-- Helper: when every attempt fails retryably, the loop uses all its fuel,
recording one attempt per unit and ending unsuccessfully. -/
theorem retryLoopAux_all_retryable (cfg : RetryConfig) (f : ℕ → AttemptOutcome)
    (rand : ℕ → ℚ)
    (hfail : ∀ j, (mkSingleResult (f j)).success = false)
    (hretry : ∀ j, isRetryable (mkSingleResult (f j)) (mkSingleResult (f j)).errorCode cfg = true) :
    ∀ fuel a, a + fuel = cfg.maxRetries + 1 → 1 ≤ fuel →
      (retryLoopAux cfg f rand a fuel).1.length = fuel ∧
      (retryLoopAux cfg f rand a fuel).2.2 = false := by
  intro fuel
  induction fuel with
  | zero => intro a _ h; omega
  | succ fuel ih =>
      intro a htot _
      simp only [retryLoopAux, hfail a, Bool.false_eq_true, if_false]
      cases fuel with
      | zero =>
          have hlt : ¬(a < cfg.maxRetries) := by omega
          simp [hlt]
      | succ fuel' =>
          have hlt : a < cfg.maxRetries := by omega
          have hcond : (decide (a < cfg.maxRetries) && isRetryable (mkSingleResult (f a))
              (mkSingleResult (f a)).errorCode cfg) = true := by
            simp [hlt, hretry a]
          simp only [hcond, if_true]
          have := ih (a + 1) (by omega) (by omega)
          simp only [List.length_cons, this.1, this.2]
          exact ⟨by trivial, by trivial⟩

/-- Helper: when attempts `a..a+k-1` fail retryably and attempt `a+k`
succeeds (within budget), the loop stops right there with `k+1` recorded
attempts. -/
theorem retryLoopAux_first_success (cfg : RetryConfig) (f : ℕ → AttemptOutcome)
    (rand : ℕ → ℚ) :
    ∀ (k fuel a : ℕ),
      a + fuel = cfg.maxRetries + 1 →
      a + k ≤ cfg.maxRetries →
      (∀ j, a ≤ j → j < a + k →
        (mkSingleResult (f j)).success = false ∧
        isRetryable (mkSingleResult (f j)) (mkSingleResult (f j)).errorCode cfg = true) →
      (mkSingleResult (f (a + k))).success = true →
      (retryLoopAux cfg f rand a fuel).1.length = k + 1 ∧
      (retryLoopAux cfg f rand a fuel).2.2 = true := by
  intro k
  induction k with
  | zero =>
      intro fuel a h1 h2 _ hsucc
      obtain ⟨fuel', rfl⟩ : ∃ f', fuel = f' + 1 := ⟨fuel - 1, by omega⟩
      rw [Nat.add_zero] at hsucc
      simp only [retryLoopAux, hsucc, if_true]
      exact ⟨by trivial, by trivial⟩
  | succ k ih =>
      intro fuel a h1 h2 hprev hsucc
      obtain ⟨fuel', rfl⟩ : ∃ f', fuel = f' + 1 := ⟨fuel - 1, by omega⟩
      have hfa := hprev a (le_refl a) (by omega)
      have hcond : (decide (a < cfg.maxRetries) && isRetryable (mkSingleResult (f a))
          (mkSingleResult (f a)).errorCode cfg) = true := by
        simp [show a < cfg.maxRetries by omega, hfa.2]
      simp only [retryLoopAux, hfa.1, Bool.false_eq_true, if_false, hcond, if_true]
      have hnext := ih fuel' (a + 1) (by omega) (by omega)
        (fun j hj1 hj2 => hprev j (by omega) (by omega))
        (by rw [show a + 1 + k = a + (k + 1) by omega]; exact hsucc)
      simp only [List.length_cons, hnext.1, hnext.2]
      exact ⟨by trivial, by trivial⟩

/-- C6: with retry enabled (`maxRetries > 0`), multiplier 2 and the default
retryable sets, the loop stops at the first 2xx response with `retriesUsed`
equal to the retries spent; a non-retryable HTTP 400 yields exactly one
attempt; a persistent HTTP 429 yields exactly `maxRetries+1` attempts and
failure; a result is retryable exactly for the five listed transport error
codes, the six listed HTTP statuses, or a timeout status; and the k-th
(0-indexed) retry is preceded by the delay
`round(min(initial·2ᵏ, max)·(1+u))` with `u = (2r-1)/4 ∈ [-1/4, 1/4)` for the
`Math.random()` draw `r`. -/
theorem C6_retry_engine (cfg : RetryConfig)
    (hmr : cfg.maxRetries ≠ 0)
    (hmult : cfg.backoffMultiplier = 2)
    (hcodes : cfg.retryableStatusCodes = [408, 429, 500, 502, 503, 504])
    (herrs : cfg.retryableErrors =
      [lit "ECONNRESET", lit "ETIMEDOUT", lit "ECONNABORTED",
       lit "ENOTFOUND", lit "EAI_AGAIN"]) :
    (∀ (f : ℕ → AttemptOutcome) (rand : ℕ → ℚ) (k : ℕ),
        k ≤ cfg.maxRetries →
        (∀ j, j < k →
          (mkSingleResult (f j)).success = false ∧
          isRetryable (mkSingleResult (f j)) (mkSingleResult (f j)).errorCode cfg = true) →
        (mkSingleResult (f k)).success = true →
        (executeWebhookRun cfg f rand).attempts.length = k + 1 ∧
        (executeWebhookRun cfg f rand).retriesUsed = k ∧
        (executeWebhookRun cfg f rand).success = true) ∧
    (∀ rand, (executeWebhookRun cfg (fun _ => .http 400) rand).attempts.length = 1) ∧
    (∀ rand, (executeWebhookRun cfg (fun _ => .http 429) rand).attempts.length =
        cfg.maxRetries + 1 ∧
      (executeWebhookRun cfg (fun _ => .http 429) rand).success = false) ∧
    (∀ o : AttemptOutcome,
        isRetryable (mkSingleResult o) (mkSingleResult o).errorCode cfg = true ↔
          ((∃ c, (mkSingleResult o).errorCode = some c ∧
              (c = lit "ECONNRESET" ∨ c = lit "ETIMEDOUT" ∨ c = lit "ECONNABORTED" ∨
               c = lit "ENOTFOUND" ∨ c = lit "EAI_AGAIN")) ∨
           (∃ s, (mkSingleResult o).httpStatusCode = some s ∧ s ≠ 0 ∧
              (s = 408 ∨ s = 429 ∨ s = 500 ∨ s = 502 ∨ s = 503 ∨ s = 504)) ∨
           (mkSingleResult o).status = lit "timeout")) ∧
    (∀ (f : ℕ → AttemptOutcome) (rand : ℕ → ℚ),
        (executeWebhookRun cfg f rand).delays =
          (List.range ((executeWebhookRun cfg f rand).attempts.length - 1)).map
            (fun k => calculateBackoffDelay k cfg (rand k))) ∧
    (∀ (k : ℕ) (r : ℚ), calculateBackoffDelay k cfg r =
        jsRound ((min (cfg.initialDelayMs * 2 ^ k) cfg.maxDelayMs) *
          (1 + (2 * r - 1) / 4))) ∧
    (∀ r : ℚ, 0 ≤ r → r < 1 →
        -(1/4 : ℚ) ≤ (2 * r - 1) / 4 ∧ (2 * r - 1) / 4 < 1/4) := by
  obtain ⟨mr', hmr'⟩ : ∃ m, cfg.maxRetries = m + 1 :=
    ⟨cfg.maxRetries - 1, by omega⟩
  refine ⟨?_, ?_, ?_, ?_, ?_, ?_, ?_⟩
  · intro f rand k hk hprev hsucc
    have h := retryLoopAux_first_success cfg f rand k (cfg.maxRetries + 1) 0
      (by omega) (by omega)
      (fun j hj1 hj2 => hprev j (by omega)) (by simpa using hsucc)
    unfold executeWebhookRun
    rw [if_neg hmr]
    rcases he : retryLoopAux cfg f rand 0 (cfg.maxRetries + 1) with ⟨att, del, ok⟩
    rw [he] at h
    exact ⟨h.1, by simp [h.1], h.2⟩
  · intro rand
    unfold executeWebhookRun
    rw [if_neg hmr, hmr']
    have hns : (mkSingleResult (AttemptOutcome.http 400)).success = false := rfl
    have hnr : isRetryable (mkSingleResult (AttemptOutcome.http 400))
        (mkSingleResult (AttemptOutcome.http 400)).errorCode cfg = false := by
      simp only [mkSingleResult, isRetryable, hcodes]
      rfl
    simp [retryLoopAux, hns, hnr]
  · intro rand
    have hfail : ∀ j : ℕ, (mkSingleResult ((fun _ : ℕ => AttemptOutcome.http 429) j)).success = false :=
      fun _ => rfl
    have hretry : ∀ j : ℕ, isRetryable (mkSingleResult ((fun _ : ℕ => AttemptOutcome.http 429) j))
        (mkSingleResult ((fun _ : ℕ => AttemptOutcome.http 429) j)).errorCode cfg = true := by
      intro j
      simp only [mkSingleResult, isRetryable, hcodes]
      rfl
    have h := retryLoopAux_all_retryable cfg (fun _ => .http 429) rand hfail hretry
      (cfg.maxRetries + 1) 0 (by omega) (by omega)
    unfold executeWebhookRun
    rw [if_neg hmr]
    rcases he : retryLoopAux cfg (fun _ => AttemptOutcome.http 429) rand 0
      (cfg.maxRetries + 1) with ⟨att, del, ok⟩
    rw [he] at h
    exact ⟨h.1, h.2⟩
  · intro o
    cases o with
    | http s =>
        have hst : ∀ (c : Prop) [Decidable c],
            ¬((if c then lit "success" else lit "error") = lit "timeout") := by
          intro c _
          split <;> decide
        simp only [mkSingleResult, isRetryable, hcodes]
        constructor
        · intro h
          simp only [Bool.or_eq_true, Bool.and_eq_true, decide_eq_true_eq] at h
          rcases h with (h | h) | h
          · exact absurd h (by simp)
          · refine Or.inr (Or.inl ⟨s, rfl, h.1, ?_⟩)
            simpa using h.2
          · exact absurd h (hst _)
        · intro h
          simp only [Bool.or_eq_true, Bool.and_eq_true, decide_eq_true_eq]
          rcases h with ⟨c, hc, _⟩ | ⟨s', hs', hne, hmem⟩ | h
          · exact absurd hc (by simp)
          · refine Or.inl (Or.inr ⟨?_, ?_⟩)
            · injection hs' with hss
              omega
            · injection hs' with hss
              subst hss
              simpa using hmem
          · exact absurd h (hst _)
    | transportError c m =>
        simp only [mkSingleResult]
        split
        · simp only [isRetryable, herrs]
          constructor
          · intro _
            exact Or.inr (Or.inr (by simp))
          · intro _
            simp
        · simp only [isRetryable, herrs]
          constructor
          · intro h
            simp only [Bool.or_eq_true, decide_eq_true_eq] at h
            rcases h with (h | h) | h
            · refine Or.inl ⟨c, rfl, ?_⟩
              simpa using h
            · exact absurd h (by simp)
            · exact absurd h (by decide)
          · intro h
            simp only [Bool.or_eq_true, decide_eq_true_eq]
            rcases h with ⟨c', hc', hmem⟩ | ⟨s', hs', _, _⟩ | h
            · refine Or.inl (Or.inl ?_)
              injection hc' with hcc
              subst hcc
              simpa using hmem
            · exact absurd hs' (by simp)
            · exact absurd h (by decide)
  · intro f rand
    unfold executeWebhookRun
    rw [if_neg hmr]
    have h := retryLoopAux_zero_delays cfg f rand cfg.maxRetries
    rcases he : retryLoopAux cfg f rand 0 (cfg.maxRetries + 1) with ⟨att, del, ok⟩
    rw [he] at h
    exact h
  · intro k r
    rw [calculateBackoffDelay_formula, hmult]
  · intro r h0 h1
    constructor <;> [linarith; linarith]

/-- C6 witness at the route's own configuration: a persistent 429 makes
exactly 4 attempts with delays 1000, 2000, 4000 ms (zero jitter draw
`r = 1/2`), and an immediate 200 makes exactly one attempt. -/
theorem C6_witness :
    routeRetryConfig.maxRetries ≠ 0 ∧
    (executeWebhookRun routeRetryConfig (fun _ => .http 429)
        (fun _ => 1/2)).attempts.length = routeRetryConfig.maxRetries + 1 ∧
    (executeWebhookRun routeRetryConfig (fun _ => .http 429)
        (fun _ => 1/2)).delays =
      (List.range ((executeWebhookRun routeRetryConfig (fun _ => .http 429)
          (fun _ => 1/2)).attempts.length - 1)).map
        (fun k => calculateBackoffDelay k routeRetryConfig ((fun _ => (1:ℚ)/2) k)) ∧
    (executeWebhookRun routeRetryConfig (fun _ => .http 200)
        (fun _ => 1/2)).attempts.length = 1 := by
  have h := C6_retry_engine routeRetryConfig (by decide) rfl rfl rfl
  refine ⟨by decide, (h.2.2.1 (fun _ => 1/2)).1,
    h.2.2.2.2.1 (fun _ => .http 429) (fun _ => 1/2), ?_⟩
  have h1 := (h.1 (fun _ => .http 200) (fun _ => 1/2) 0 (by decide)
    (fun j hj => absurd hj (by omega)) rfl).1
  simpa using h1

/-! ### C7 — secret resolution by textual reference -/

/-- C7: a secret is decrypted exactly when its name appears textually in the
source in one of the three scanned forms (the secrets map holds precisely the
referenced documents with their decryption outcome); the single bulk update
carries exactly the successfully decrypted referenced ids; and an
unreferenced secret is absent from the update set, so the bulk update leaves
its document — usage counter included — unchanged. -/
theorem C7_secret_resolution (code : Str) (docs : List SecretDoc)
    (dec : SecretDoc → Option Str)
    (hnodup : (docs.map SecretDoc.sid).Nodup) :
    (resolveSecrets code docs dec).1 =
      (docs.filter (fun d => isReferenced code d.name)).map (fun d => (d.name, dec d)) ∧
    (resolveSecrets code docs dec).2 =
      (docs.filter (fun d => isReferenced code d.name && (dec d).isSome)).map
        SecretDoc.sid ∧
    (∀ d ∈ docs, isReferenced code d.name = false →
        (resolveSecrets code docs dec).2.contains d.sid = false) ∧
    (∀ d ∈ docs, isReferenced code d.name = false →
        d ∈ applyBulkUsageUpdate docs (resolveSecrets code docs dec).2) := by
  have h12 : ∀ ds : List SecretDoc, resolveSecrets code ds dec =
      ((ds.filter (fun d => isReferenced code d.name)).map (fun d => (d.name, dec d)),
       (ds.filter (fun d => isReferenced code d.name && (dec d).isSome)).map
         SecretDoc.sid) := by
    intro ds
    induction ds with
    | nil => rfl
    | cons d rest ih =>
        simp only [resolveSecrets, ih]
        by_cases hr : isReferenced code d.name
        · cases hdec : dec d <;> simp [hr, hdec, List.filter_cons]
        · simp [hr, List.filter_cons]
  have h3 : ∀ d ∈ docs, isReferenced code d.name = false →
      (resolveSecrets code docs dec).2.contains d.sid = false := by
    intro d hd href
    rw [h12 docs]
    have hnot : d.sid ∉ (docs.filter
        (fun x => isReferenced code x.name && (dec x).isSome)).map SecretDoc.sid := by
      intro hmem
      obtain ⟨d', hd', hsid⟩ := List.mem_map.mp hmem
      have hd'2 := List.mem_filter.mp hd'
      have heq : d' = d := List.inj_on_of_nodup_map hnodup hd'2.1 hd hsid
      rw [heq] at hd'2
      simp [href] at hd'2
    simpa using hnot
  refine ⟨by rw [h12 docs], by rw [h12 docs], h3, ?_⟩
  intro d hd href
  have hc := h3 d hd href
  unfold applyBulkUsageUpdate
  refine List.mem_map.mpr ⟨d, hd, ?_⟩
  simp only [hc, Bool.false_eq_true, if_false]

/-- C7 witness: with a source referencing only `secrets.API_KEY`, the other
secret is never decrypted, the bulk update carries exactly the referenced id,
and the unreferenced counter is unchanged. -/
theorem C7_witness :
    (exSecretDocs.map SecretDoc.sid).Nodup ∧
    resolveSecrets exCode exSecretDocs (fun _ => some (lit "v")) =
      ([(lit "API_KEY", some (lit "v"))], [1]) ∧
    applyBulkUsageUpdate exSecretDocs [1] =
      [⟨1, lit "API_KEY", 6⟩, ⟨2, lit "OTHER", 7⟩] ∧
    (∀ d ∈ exSecretDocs, isReferenced exCode d.name = false →
        (resolveSecrets exCode exSecretDocs (fun _ => some (lit "v"))).2.contains d.sid
          = false) :=
  ⟨by decide, by decide, by decide,
   (C7_secret_resolution exCode exSecretDocs (fun _ => some (lit "v"))
     (by decide)).2.2.1⟩

/-! ### C8 — error-string sanitization -/

/-- C8 counterexample: a 501-character upstream error message reaches the
caller's `outputFields` verbatim on the webhook handler's non-exception path;
it is longer than 500 characters and differs from its own sanitization, so it
did not pass through the truncating filter. -/
theorem C8_counterexample :
    (webhookHandler (some (lit "https://x.example"))
        ⟨false, lit "error", some 500, some (List.replicate 501 'a'), 0⟩
        (.ok ()) (.ok ()) (.ok ())).response.outputFields =
      [(lit "hubhacks_success", JVal.b false),
       (lit "hubhacks_status_code", JVal.n (JsNum.ofInt 500)),
       (lit "hubhacks_retries_used", JVal.n (JsNum.ofInt 0)),
       (lit "hubhacks_error", JVal.s (List.replicate 501 'a'))] ∧
    (List.replicate 501 'a').length = 501 ∧
    sanitizeErrorMessage (List.replicate 501 'a') ≠ List.replicate 501 'a' := by
  refine ⟨rfl, by decide, by decide⟩

/-- C8 (amended): the handlers' catch paths do pass the error through
`sanitizeErrorMessage`, whose output never exceeds 500 characters; but the
webhook handler's ordinary failure path copies `result.errorMessage` into
`outputFields` verbatim, without the filter. -/
theorem C8_amended :
    (∀ (e : Str) (w : Except Str Unit),
        (webhookCatch e w).response.outputFields =
          [(lit "hubhacks_success", JVal.b false),
           (lit "hubhacks_error", JVal.s (sanitizeErrorMessage e))]) ∧
    (∀ m : Str, (sanitizeErrorMessage m).length ≤ 500) ∧
    (∀ (url : Str) (result : WebhookResult) (m : Str),
        result.success = false → result.errorMessage = some m →
        (webhookHandler (some url) result
            (.ok ()) (.ok ()) (.ok ())).response.outputFields.getLast? =
          some (lit "hubhacks_error", JVal.s m)) := by
  refine ⟨fun e w => rfl, ?_, ?_⟩
  · intro m
    unfold sanitizeErrorMessage
    split
    · decide
    · exact List.length_take_le 500 _
  · intro url result m hs hm
    simp [webhookHandler, hs, hm]

/-- C8 amended-claim witness: a concrete failing webhook result whose raw
message is exposed unsanitized. -/
theorem C8_amended_witness :
    (⟨false, lit "error", some 502, some (lit "upstream boom"), 2⟩ :
        WebhookResult).success = false ∧
    (webhookHandler (some (lit "https://x.example"))
        ⟨false, lit "error", some 502, some (lit "upstream boom"), 2⟩
        (.ok ()) (.ok ()) (.ok ())).response.outputFields.getLast? =
      some (lit "hubhacks_error", JVal.s (lit "upstream boom")) :=
  ⟨rfl, C8_amended.2.2 (lit "https://x.example")
    ⟨false, lit "error", some 502, some (lit "upstream boom"), 2⟩
    (lit "upstream boom") rfl rfl⟩

/-! ### C9 — code-action result shaping -/

/-- C9 counterexample: user code that returns the non-object `42` while
writing nothing into `output` produces an empty posted output — not the
single field `output_1 = "42"` the claim requires (which the spec-side
shaping would produce). -/
theorem C9_counterexample :
    workerPostedOutput (JVal.n (JsNum.ofInt 42)) [] = [] ∧
    specShapeResult (JVal.n (JsNum.ofInt 42)) = [(lit "output_1", lit "42")] ∧
    codeRouteOutputFields true [] none = [(lit "hubhacks_success", JVal.b true)] ∧
    specShapeResult (JVal.n (JsNum.ofInt 42)) ≠ [] := by
  refine ⟨rfl, rfl, rfl, by decide⟩

/-- C9 (amended): the worker posts the user-populated `output` object
unchanged — the value returned by the user code never contributes (any two
return values yield the same posted output, and no five-field cap or
stringification is applied) — and the route spreads those entries after
`hubhacks_success`. -/
theorem C9_amended :
    ∀ (ret ret' : JVal) (out : List (Str × JVal)),
      workerPostedOutput ret out = out ∧
      workerPostedOutput ret out = workerPostedOutput ret' out ∧
      codeRouteOutputFields true out none =
        (lit "hubhacks_success", JVal.b true) :: out := by
  intro ret ret' out
  refine ⟨rfl, rfl, ?_⟩
  simp [codeRouteOutputFields]

/-! ### C10 — formula `round({{amt}}*1.18,2)` -/

/-- C10: evaluating `round((amt placeholder)*1.18,2)` against
`{amt: 10000}` yields `"10000"`, not the documented `"11800.00"`: the `round`
rule fires before the multiplication pass of the same iteration, captures the
unreduced argument `10000*1.18`, and `parseFloat` truncates it at the `*`
(second conjunct), so the tax multiplication never happens. -/
theorem C10_round_formula :
    evaluateFormula (lit "round(\x7b\x7bamt\x7d\x7d*1.18,2)")
      (JVal.o [(lit "amt", JVal.n (JsNum.ofInt 10000))]) [] = lit "10000" ∧
    jsParseFloat (lit "10000*1.18") = some (JsNum.ofInt 10000) ∧
    lit "10000" ≠ lit "11800.00" := by
  refine ⟨by decide, by decide, by decide⟩

end TriOps
